import Mathlib

/-!
Verification of the lastuser resource/scope engine
(`lastuser_oauth/views/resource.py`) against its specification.

The Python source is shallowly embedded below: users, organizations, teams,
clients and tokens become Lean structures; the database tables consulted by
the views become explicit list-backed tables; every view function becomes a
pure Lean function over those values.  String operations used by the source
(`split(' ')`, slicing, `startswith`, `sorted`) are implemented over
`String.data` so that every definition evaluates inside the kernel.
-/

namespace Lastuser

/-! ## String helpers -/

/-- Lexicographic comparison of character lists by code point, the order
Python's `sorted` uses on strings. -/
def charsLe : List Char → List Char → Bool
  | [], _ => true
  | _ :: _, [] => false
  | a :: as, b :: bs => if a = b then charsLe as bs else decide (a < b)

/-- Python string `<=` (lexicographic by code point), as a relation on
`String`. -/
def strLe (a b : String) : Prop := charsLe a.data b.data = true

instance : DecidableRel strLe := fun a b =>
  inferInstanceAs (Decidable (charsLe a.data b.data = true))

/-- Python `sorted` on a list of strings. -/
def pySorted (l : List String) : List String := List.insertionSort strLe l

/-- Python `s.split(' ')`: split on every single space, keeping empty
fields; the empty string yields `[""]`.  Auxiliary recursion carrying the
current field in reverse. -/
def splitSpaceAux : List Char → List Char → List String
  | [], acc => [⟨acc.reverse⟩]
  | c :: cs, acc =>
    if c = ' ' then ⟨acc.reverse⟩ :: splitSpaceAux cs [] else splitSpaceAux cs (c :: acc)

/-- Python `s.split(' ')`. -/
def splitSpace (s : String) : List String := splitSpaceAux s.data []

/-- Python `s.startswith(pre)` on character lists. -/
def charsStartswith : List Char → List Char → Bool
  | _, [] => true
  | [], _ :: _ => false
  | a :: as, b :: bs => decide (a = b) && charsStartswith as bs

/-- Python `s.startswith(pre)`. -/
def strStartswith (s pre : String) : Bool := charsStartswith s.data pre.data

/-- Python slice `s[n:]` (drop the first `n` characters). -/
def strDrop (s : String) (n : Nat) : String := ⟨s.data.drop n⟩

/-! ## Data model

The SQLAlchemy models consulted by `resource.py` are not part of the
source under review; the structures below carry exactly the attributes the
views read. -/

/-- An old (merged-away) principal, read via `user.oldids`. -/
structure Merged where
  buid : String
  uuid : String
deriving Repr, DecidableEq

/-- The organization attributes reachable from a team
(`team.organization.buid` / `.uuid` / `.owners`).  Team identity in the
database is its `buid`, so `team == team.organization.owners` is embedded
as equality of the team's buid with `ownersBuid`, the buid of the
organization's designated owners team. -/
structure OrgRef where
  buid : String
  uuid : String
  ownersBuid : String
deriving Repr, DecidableEq

/-- A team, with the attributes read by `get_userinfo`. -/
structure Team where
  buid : String
  uuid : String
  title : String
  organization : OrgRef
deriving Repr, DecidableEq

/-- An organization, with the attributes read by `get_userinfo`
(`organizations_owned()` entries also expose their `teams`). -/
structure Organization where
  buid : String
  uuid : String
  name : String
  title : String
  teams : List Team
deriving Repr, DecidableEq

/-- A user, with the attributes read by `resource.py`.  `email` and
`phone` hold `str(user.email)` / `str(user.phone)`; `organizations_owned`,
`organizations_memberof` and `organizations` embed the corresponding
query methods. -/
structure User where
  buid : String
  uuid : String
  username : String
  fullname : String
  timezone : String
  avatar : String
  oldids : List Merged
  email : String
  phone : String
  teams : List Team
  organizations_owned : List Organization
  organizations_memberof : List Organization
  organizations : List Organization
deriving Repr, DecidableEq

/-- The owner of a client, as read for `clientinfo`. -/
structure Owner where
  buid : String
  uuid : String
  pickername : String
deriving Repr, DecidableEq

/-- An auth client.  `nameSpace` embeds the `namespace` attribute (a Lean
keyword), with `""` standing for Python `None`/empty (both falsy);
`user` is the controlling user's buid for a user-owned client, `none` for
an organization-owned client (only its truthiness and identity are read). -/
structure AuthClient where
  buid : String
  title : String
  owner : Owner
  website : String
  trusted : Bool
  nameSpace : String
  user : Option String
deriving Repr, DecidableEq

/-- An auth token: at most one user, an owning client, and an effective
scope (ordered list of scope tokens). -/
structure AuthToken where
  user : Option User
  auth_client : AuthClient
  effective_scope : List String
deriving Repr, DecidableEq

/-- A row of the `AuthClientUserPermissions` table: a direct
(client, user) permission grant. -/
structure UserPermRow where
  clientBuid : String
  userBuid : String
  access_permissions : String
deriving Repr, DecidableEq

/-- A row of the `AuthClientTeamPermissions` table: a (client, team)
permission grant. -/
structure TeamPermRow where
  clientBuid : String
  teamBuid : String
  access_permissions : String
deriving Repr, DecidableEq

/-- The storage collaborator: the three tables the views consult. -/
structure Database where
  userPerms : List UserPermRow
  teamPerms : List TeamPermRow
  tokens : List (String × AuthToken)
deriving Repr, DecidableEq

/-- Modelled from the spec: `AuthClientUserPermissions.get(auth_client, user)`
(grant lookup by (client, user); the model class is not under review) —
the direct grant record for the pair, if any. -/
def AuthClientUserPermissions.get (db : Database) (auth_client : AuthClient)
    (user : User) : Option UserPermRow :=
  db.userPerms.find? (fun r => r.clientBuid = auth_client.buid ∧ r.userBuid = user.buid)

/-- Modelled from the spec: `AuthClientTeamPermissions.all_for(auth_client,
user).all()` (the model class is not under review) — the (client, team)
grant rows over the teams the user belongs to. -/
def AuthClientTeamPermissions.all_for (db : Database) (auth_client : AuthClient)
    (user : User) : List TeamPermRow :=
  db.teamPerms.filter
    (fun r => r.clientBuid = auth_client.buid ∧ ∃ t ∈ user.teams, t.buid = r.teamBuid)

/-- Modelled from the spec: `AuthToken.get(token=...)` (token lookup by
opaque string; the model class is not under review). -/
def AuthToken.get (db : Database) (token : String) : Option AuthToken :=
  (db.tokens.find? (fun p => p.1 = token)).map Prod.snd

/-! ## Projection output documents -/

/-- One `{userid, buid, uuid, name, title}` entry of the `organizations`
lists. -/
structure OrgInfo where
  userid : String
  buid : String
  uuid : String
  name : String
  title : String
deriving Repr, DecidableEq

/-- The `organizations` value: `owner`, `member` and `all` lists. -/
structure OrgListing where
  owner : List OrgInfo
  member : List OrgInfo
  all : List OrgInfo
deriving Repr, DecidableEq

/-- One entry of the team map / `teams` list. -/
structure TeamInfo where
  userid : String
  buid : String
  uuid : String
  title : String
  org : String
  org_uuid : String
  owners : Bool
  member : Bool
deriving Repr, DecidableEq

/-- The block of fields disclosed under the `id` topic. -/
structure IdBlock where
  userid : String
  buid : String
  uuid : String
  username : String
  fullname : String
  timezone : String
  avatar : String
  oldids : List String
  olduuids : List String
deriving Repr, DecidableEq

/-- The `get_userinfo` result document; `none` embeds an absent key. -/
structure UserInfo where
  idBlock : Option IdBlock
  sessionid : Option String
  email : Option String
  phone : Option String
  organizations : Option OrgListing
  teams : Option (List TeamInfo)
  permissions : Option (List String)
deriving Repr, DecidableEq

/-- The `{userid, buid, uuid, name, title}` dict built for each
organization in the three `organizations` lists. -/
def orgInfoOf (org : Organization) : OrgInfo :=
  { userid := org.buid, buid := org.buid, uuid := org.uuid,
    name := org.name, title := org.title }

/-- The team dict built by both team passes of `get_userinfo`; the two
source literals are identical except for the `member` flag. -/
def teamEntry (team : Team) (member : Bool) : TeamInfo :=
  { userid := team.buid, buid := team.buid, uuid := team.uuid,
    title := team.title, org := team.organization.buid,
    org_uuid := team.organization.uuid,
    owners := team.buid = team.organization.ownersBuid,
    member := member }

/-- The `teams` dict of `get_userinfo`: a Python dict keyed by team buid,
embedded as an insertion-ordered association list. -/
abbrev TeamMap := List (String × TeamInfo)

/-- Python `k in d` on the team dict. -/
def dictContains (m : TeamMap) (k : String) : Bool := m.any (fun p => p.1 = k)

/-- Python `d[k] = v`: overwrite in place if the key exists, else append. -/
def dictInsert (m : TeamMap) (k : String) (v : TeamInfo) : TeamMap :=
  if dictContains m k then m.map (fun p => if p.1 = k then (k, v) else p)
  else m ++ [(k, v)]

/-- One step of the first team pass: `teams[team.buid] = {...,
'member': True}`. -/
def directStep (m : TeamMap) (team : Team) : TeamMap :=
  dictInsert m team.buid (teamEntry team true)

/-- One step of the second team pass: `if team.buid not in teams:
teams[team.buid] = {..., 'member': False}`. -/
def ownedStep (m : TeamMap) (team : Team) : TeamMap :=
  if dictContains m team.buid then m
  else dictInsert m team.buid (teamEntry team false)

/-- First team pass of `get_userinfo`: every directly-joined team is
upserted with `member=True`. -/
def teamsPassDirect (user : User) (m : TeamMap) : TeamMap :=
  user.teams.foldl directStep m

/-- Second team pass of `get_userinfo`: every team of every owned
organization is added with `member=False` unless already present. -/
def teamsPassOwned (user : User) (m : TeamMap) : TeamMap :=
  user.organizations_owned.foldl (fun m org => org.teams.foldl ownedStep m) m

/-- The gate of the first team pass: `'*' in scope or 'organizations' in
scope or 'teams' in scope or 'organizations/*' in scope or 'teams/*' in
scope`. -/
def teamsGate1 (scope : List String) : Prop :=
  "*" ∈ scope ∨ "organizations" ∈ scope ∨ "teams" ∈ scope ∨
    "organizations/*" ∈ scope ∨ "teams/*" ∈ scope

instance (scope : List String) : Decidable (teamsGate1 scope) := by
  unfold teamsGate1
  infer_instance

/-- The gate of the second team pass: `'*' in scope or 'teams' in scope
or 'teams/*' in scope`. -/
def teamsGate2 (scope : List String) : Prop :=
  "*" ∈ scope ∨ "teams" ∈ scope ∨ "teams/*" ∈ scope

instance (scope : List String) : Decidable (teamsGate2 scope) := by
  unfold teamsGate2
  infer_instance

/-- The team dict of `get_userinfo` after the first gated pass. -/
def teamMap1 (user : User) (scope : List String) : TeamMap :=
  if teamsGate1 scope then teamsPassDirect user [] else []

/-- The team dict of `get_userinfo` after both gated passes. -/
def teamMap (user : User) (scope : List String) : TeamMap :=
  if teamsGate2 scope then teamsPassOwned user (teamMap1 user scope)
  else teamMap1 user scope

/-- Python `set.update`/`set()` over lists: add each element not already
present, keeping first-insertion order (order is irrelevant once sorted). -/
def setUpdate (s : List String) (xs : List String) : List String :=
  xs.foldl (fun s x => if x ∈ s then s else s ++ [x]) s

/-- Lines 130–143 of `get_userinfo`: the `permissions` value, `none` when
the key is not set (user-owned client with no grant record). -/
def permissions_of (db : Database) (auth_client : AuthClient) (user : User) :
    Option (List String) :=
  match auth_client.user with
  | some _ =>
    match AuthClientUserPermissions.get db auth_client user with
    | some perms => some (splitSpace perms.access_permissions)
    | none => none
  | none =>
    let permsset : List String :=
      if user.teams.isEmpty then []
      else
        (AuthClientTeamPermissions.all_for db auth_client user).foldl
          (fun s permob => setUpdate s (splitSpace permob.access_permissions)) []
    some (pySorted permsset)

/-- `get_userinfo(user, auth_client, scope, user_session, get_permissions)`:
the scope-gated projection of a user.  `user_session` carries the session
buid when a session is supplied. -/
def get_userinfo (db : Database) (user : User) (auth_client : AuthClient)
    (scope : List String) (user_session : Option String)
    (get_permissions : Bool) : UserInfo :=
  let idBlock : Option IdBlock :=
    if "*" ∈ scope ∨ "id" ∈ scope ∨ "id/*" ∈ scope then
      some { userid := user.buid, buid := user.buid, uuid := user.uuid,
             username := user.username, fullname := user.fullname,
             timezone := user.timezone, avatar := user.avatar,
             oldids := user.oldids.map (fun o => o.buid),
             olduuids := user.oldids.map (fun o => o.uuid) }
    else none
  let email : Option String :=
    if "*" ∈ scope ∨ "email" ∈ scope ∨ "email/*" ∈ scope then some user.email else none
  let phone : Option String :=
    if "*" ∈ scope ∨ "phone" ∈ scope ∨ "phone/*" ∈ scope then some user.phone else none
  let organizations : Option OrgListing :=
    if "*" ∈ scope ∨ "organizations" ∈ scope ∨ "organizations/*" ∈ scope then
      some { owner := user.organizations_owned.map orgInfoOf,
             member := user.organizations_memberof.map orgInfoOf,
             all := user.organizations.map orgInfoOf }
    else none
  let teams2 : TeamMap := teamMap user scope
  { idBlock := idBlock,
    sessionid := user_session,
    email := email,
    phone := phone,
    organizations := organizations,
    teams := if teams2.isEmpty then none else some (teams2.map Prod.snd),
    permissions := if get_permissions then permissions_of db auth_client user else none }

/-! ## Responses and the token-verification endpoints -/

/-- The `clientinfo` dict of the verification endpoints; `scope` embeds
the extra key set only by `token_get_scope`. -/
structure ClientInfo where
  title : String
  userid : String
  buid : String
  uuid : String
  owner_title : String
  website : String
  key : String
  trusted : Bool
  scope : Option (List String)
deriving Repr, DecidableEq

/-- The success parameters of the verification endpoints. -/
structure VerifyParams where
  validity : Nat
  userinfo : Option UserInfo
  clientinfo : ClientInfo
deriving Repr, DecidableEq

/-- A response of the verification endpoints: `resourceError` embeds
`resource_error(...)` (HTTP 400), `apiError` embeds
`api_result('error', error=...)` and `apiOk` embeds
`api_result('ok', **params)` (both HTTP 200). -/
inductive ApiResponse where
  | resourceError (error : String)
  | apiError (error : String)
  | apiOk (params : VerifyParams)
deriving Repr, DecidableEq

/-- The HTTP status code of a response: `resource_error` sets 400, while
`api_result` returns 200 for both `status:ok` and `status:error`. -/
def ApiResponse.statusCode : ApiResponse → Nat
  | .resourceError _ => 400
  | .apiError _ => 200
  | .apiOk _ => 200

/-- `resource_error(error)`: the 400-class malformed-request response. -/
def resource_error (error : String) : ApiResponse := .resourceError error

/-- `token_verify()`: the `/api/1/token/verify` view.  `access_token` and
`resource` are the form fields, with `""` embedding a missing or empty
(falsy) value; `caller` is the authenticated client. -/
def token_verify (db : Database) (caller : AuthClient)
    (access_token : String) (resource : String) : ApiResponse :=
  if resource = "" then resource_error "no_resource"
  else if resource ≠ "*" then resource_error "unknown_resource"
  else if access_token = "" then resource_error "no_token"
  else if caller.nameSpace = "" then .apiError "client_no_resources"
  else
    match AuthToken.get db access_token with
    | none => .apiError "no_token"
    | some authtoken =>
      if caller.nameSpace ++ ":" ++ resource ∉ authtoken.effective_scope ∧
          caller.nameSpace ++ ":*" ∉ authtoken.effective_scope then
        .apiError "access_denied"
      else
        .apiOk
          { validity := 120,
            userinfo := authtoken.user.map
              (fun u => get_userinfo db u caller authtoken.effective_scope none true),
            clientinfo :=
              { title := authtoken.auth_client.title,
                userid := authtoken.auth_client.owner.buid,
                buid := authtoken.auth_client.owner.buid,
                uuid := authtoken.auth_client.owner.uuid,
                owner_title := authtoken.auth_client.owner.pickername,
                website := authtoken.auth_client.website,
                key := authtoken.auth_client.buid,
                trusted := authtoken.auth_client.trusted,
                scope := none } }

/-- The loop of `token_get_scope` collecting namespace-prefixed scope
entries with the prefix stripped. -/
def clientResourcesLoop (nspre : String) (scope : List String) : List String :=
  scope.foldl
    (fun acc item =>
      if strStartswith item nspre then acc ++ [strDrop item nspre.length] else acc)
    []

/-- `token_get_scope()`: the `/api/1/token/get_scope` view. -/
def token_get_scope (db : Database) (caller : AuthClient)
    (access_token : String) : ApiResponse :=
  if access_token = "" then resource_error "no_token"
  else if caller.nameSpace = "" then .apiError "client_no_resources"
  else
    match AuthToken.get db access_token with
    | none => .apiError "no_token"
    | some authtoken =>
      if (clientResourcesLoop (caller.nameSpace ++ ":") authtoken.effective_scope).isEmpty then
        .apiError "no_access"
      else
        .apiOk
          { validity := 120,
            userinfo := authtoken.user.map
              (fun u => get_userinfo db u caller authtoken.effective_scope none true),
            clientinfo :=
              { title := authtoken.auth_client.title,
                userid := authtoken.auth_client.owner.buid,
                buid := authtoken.auth_client.owner.buid,
                uuid := authtoken.auth_client.owner.uuid,
                owner_title := authtoken.auth_client.owner.pickername,
                website := authtoken.auth_client.website,
                key := authtoken.auth_client.buid,
                trusted := authtoken.auth_client.trusted,
                scope := some (clientResourcesLoop (caller.nameSpace ++ ":")
                  authtoken.effective_scope) } }

/-! ## Token-based resource handlers -/

/-- `resource_id()`: the `/api/1/id` handler.  `allFlag` embeds the
truthiness of `'all' in args and getbool(args['all'])`; the result is the
handler's document for the token's user. -/
def resource_id (db : Database) (authtoken : AuthToken) (allFlag : Bool) :
    Option UserInfo :=
  authtoken.user.map
    (fun u =>
      if allFlag then
        get_userinfo db u authtoken.auth_client authtoken.effective_scope none true
      else
        get_userinfo db u authtoken.auth_client ["id"] none false)

/-- The scheme/netloc pair read off a parsed URL. -/
structure ParsedUrl where
  scheme : String
  netloc : String
deriving Repr, DecidableEq

/-- Scan for the first `"://"` in a URL's characters, returning the part
before it and the part after it. -/
def splitScheme : List Char → Option (List Char × List Char)
  | [] => none
  | ':' :: '/' :: '/' :: rest => some ([], rest)
  | c :: cs => (splitScheme cs).map (fun p => (c :: p.1, p.2))

/-- Modelled from the spec: Python's `urlparse` (standard library, not
under review), restricted to the two attributes the handler reads — an
absolute URL `scheme://host/...` yields its scheme and its netloc (the
host part, up to the first `/`, `?` or `#`); a URL with no `"://"` yields
empty scheme and netloc. -/
def urlparse (url : String) : ParsedUrl :=
  match splitScheme url.data with
  | none => { scheme := "", netloc := "" }
  | some (sch, rest) =>
    { scheme := ⟨sch⟩,
      netloc := ⟨rest.takeWhile (fun c => c != '/' && c != '?' && c != '#')⟩ }

/-- The response document of `resource_avatar_edit`. -/
structure AvatarDoc where
  avatar : String
deriving Repr, DecidableEq

/-- `resource_avatar_edit()`: the `/api/1/avatar/edit` handler.  Returns
the (possibly updated) token user together with either the response
document or the `BadRequest` error message. -/
def resource_avatar_edit (user : User) (avatar : String) :
    User × Except String AvatarDoc :=
  let parsed := urlparse avatar
  if parsed.scheme = "https" ∧ parsed.netloc ≠ "" then
    let user2 := { user with avatar := avatar }
    (user2, .ok { avatar := user2.avatar })
  else
    (user, .error "Invalid avatar URL")

/-! ## Lemmas: prefixes, slices and the scope-suffix loop -/

theorem charsStartswith_iff : ∀ s p : List Char,
    charsStartswith s p = true ↔ ∃ t, s = p ++ t
  | s, [] => by simp [charsStartswith]
  | [], b :: bs => by simp [charsStartswith]
  | a :: as, b :: bs => by
    simp only [charsStartswith, Bool.and_eq_true, decide_eq_true_eq,
      charsStartswith_iff as bs, List.cons_append]
    constructor
    · rintro ⟨rfl, t, rfl⟩
      exact ⟨t, rfl⟩
    · rintro ⟨t, ht⟩
      injection ht with h1 h2
      exact ⟨h1, t, h2⟩

theorem strStartswith_iff (s pre : String) :
    strStartswith s pre = true ↔ ∃ r : String, s = pre ++ r := by
  unfold strStartswith
  rw [charsStartswith_iff]
  constructor
  · rintro ⟨t, ht⟩
    exact ⟨⟨t⟩, String.ext (by simpa using ht)⟩
  · rintro ⟨r, rfl⟩
    exact ⟨r.data, by simp⟩

theorem strDrop_append (pre r : String) :
    strDrop (pre ++ r) pre.length = r := by
  cases pre with
  | mk dp =>
    cases r with
    | mk dr =>
      apply String.ext
      simp [strDrop, List.drop_left]

theorem clientResourcesLoop_acc (nspre : String) (scope : List String)
    (acc : List String) :
    scope.foldl
      (fun acc item =>
        if strStartswith item nspre then acc ++ [strDrop item nspre.length]
        else acc)
      acc
    = acc ++ scope.filterMap
        (fun item =>
          if strStartswith item nspre then some (strDrop item nspre.length)
          else none) := by
  induction scope generalizing acc with
  | nil => simp
  | cons x xs ih =>
    by_cases h : strStartswith x nspre = true <;>
      simp [List.foldl_cons, List.filterMap_cons, h, ih, List.append_assoc]

theorem clientResourcesLoop_eq (nspre : String) (scope : List String) :
    clientResourcesLoop nspre scope
    = scope.filterMap
        (fun item =>
          if strStartswith item nspre then some (strDrop item nspre.length)
          else none) := by
  simpa using clientResourcesLoop_acc nspre scope []

theorem mem_clientResourcesLoop (nspre : String) (scope : List String)
    (r : String) :
    r ∈ clientResourcesLoop nspre scope ↔ (nspre ++ r) ∈ scope := by
  rw [clientResourcesLoop_eq]
  simp only [List.mem_filterMap]
  constructor
  · rintro ⟨item, hitem, hmap⟩
    by_cases h : strStartswith item nspre = true
    · rw [if_pos h] at hmap
      obtain ⟨t, rfl⟩ := (strStartswith_iff item nspre).mp h
      rw [strDrop_append] at hmap
      obtain rfl : t = r := Option.some.inj hmap
      exact hitem
    · rw [if_neg h] at hmap
      exact absurd hmap (by simp)
  · intro hmem
    refine ⟨nspre ++ r, hmem, ?_⟩
    rw [if_pos ((strStartswith_iff _ nspre).mpr ⟨r, rfl⟩), strDrop_append]

theorem str_append_colon_star (ns : String) : ns ++ ":" ++ "*" = ns ++ ":*" := by
  apply String.ext
  simp

/-! ## Lemmas: the lexicographic order and Python `sorted` -/

theorem charsLe_total : ∀ as bs : List Char,
    charsLe as bs = true ∨ charsLe bs as = true
  | [], _ => Or.inl rfl
  | _ :: _, [] => Or.inr rfl
  | a :: as, b :: bs => by
    by_cases hab : a = b
    · subst hab
      simpa [charsLe] using charsLe_total as bs
    · rcases lt_or_gt_of_ne hab with h | h
      · exact Or.inl (by simp [charsLe, hab, h])
      · exact Or.inr (by simp [charsLe, Ne.symm hab, h])

theorem charsLe_trans : ∀ as bs cs : List Char,
    charsLe as bs = true → charsLe bs cs = true → charsLe as cs = true
  | [], _, _, _, _ => rfl
  | _ :: _, [], _, h1, _ => by simp [charsLe] at h1
  | _ :: _, _ :: _, [], _, h2 => by simp [charsLe] at h2
  | a :: as, b :: bs, c :: cs, h1, h2 => by
    by_cases hab : a = b <;> by_cases hbc : b = c
    · subst hab; subst hbc
      simp only [charsLe, if_pos rfl] at h1 h2 ⊢
      exact charsLe_trans as bs cs h1 h2
    · subst hab
      simp only [charsLe, if_pos rfl, if_neg hbc, decide_eq_true_eq] at h2
      simp [charsLe, ne_of_lt h2, h2]
    · subst hbc
      simp only [charsLe, if_pos rfl, if_neg hab, decide_eq_true_eq] at h1
      simp [charsLe, hab, h1]
    · simp only [charsLe, if_neg hab, if_neg hbc, decide_eq_true_eq] at h1 h2
      have hac : a < c := lt_trans h1 h2
      simp [charsLe, ne_of_lt hac, hac]

theorem charsLe_antisymm : ∀ as bs : List Char,
    charsLe as bs = true → charsLe bs as = true → as = bs
  | [], [], _, _ => rfl
  | [], _ :: _, _, h2 => by simp [charsLe] at h2
  | _ :: _, [], h1, _ => by simp [charsLe] at h1
  | a :: as, b :: bs, h1, h2 => by
    by_cases hab : a = b
    · subst hab
      simp only [charsLe, if_pos rfl] at h1 h2
      rw [charsLe_antisymm as bs h1 h2]
    · simp only [charsLe, if_neg hab, if_neg (Ne.symm hab), decide_eq_true_eq] at h1 h2
      exact absurd (lt_trans h1 h2) (lt_irrefl a)

instance : IsTotal String strLe := ⟨fun a b => charsLe_total a.data b.data⟩

instance : IsTrans String strLe :=
  ⟨fun a b c h1 h2 => charsLe_trans a.data b.data c.data h1 h2⟩

instance : IsAntisymm String strLe :=
  ⟨fun a b h1 h2 => String.ext (charsLe_antisymm a.data b.data h1 h2)⟩

theorem pySorted_perm (l : List String) : List.Perm (pySorted l) l :=
  List.perm_insertionSort strLe l

theorem pySorted_sorted (l : List String) : (pySorted l).Sorted strLe :=
  List.sorted_insertionSort strLe l

theorem pySorted_eq_of_perm {l1 l2 : List String} (h : List.Perm l1 l2) :
    pySorted l1 = pySorted l2 :=
  List.eq_of_perm_of_sorted
    ((pySorted_perm l1).trans (h.trans (pySorted_perm l2).symm))
    (pySorted_sorted l1) (pySorted_sorted l2)

/-! ## Lemmas: `set()` accumulation -/

theorem mem_setUpdate : ∀ (xs s : List String) (y : String),
    y ∈ setUpdate s xs ↔ y ∈ s ∨ y ∈ xs
  | [], s, y => by simp [setUpdate]
  | x :: xs, s, y => by
    have step : setUpdate s (x :: xs)
        = setUpdate (if x ∈ s then s else s ++ [x]) xs := rfl
    rw [step, mem_setUpdate xs _ y]
    by_cases h : x ∈ s
    · rw [if_pos h]
      constructor
      · rintro (hy | hy)
        · exact Or.inl hy
        · exact Or.inr (List.mem_cons_of_mem x hy)
      · rintro (hy | hy)
        · exact Or.inl hy
        · rcases List.mem_cons.mp hy with rfl | hy
          · exact Or.inl h
          · exact Or.inr hy
    · rw [if_neg h]
      simp only [List.mem_append, List.mem_singleton, List.mem_cons]
      tauto

theorem nodup_setUpdate : ∀ (xs s : List String), s.Nodup → (setUpdate s xs).Nodup
  | [], _, h => h
  | x :: xs, s, h => by
    have step : setUpdate s (x :: xs)
        = setUpdate (if x ∈ s then s else s ++ [x]) xs := rfl
    rw [step]
    apply nodup_setUpdate
    by_cases hx : x ∈ s
    · rwa [if_pos hx]
    · rw [if_neg hx]
      exact List.Nodup.append h (List.nodup_singleton x)
        (fun a ha hax => hx (by rcases List.mem_singleton.mp hax with rfl; exact ha))

/-- Membership in the permission-collecting fold of `get_userinfo`. -/
theorem mem_permsFold : ∀ (rows : List TeamPermRow) (s : List String) (y : String),
    y ∈ rows.foldl (fun s permob => setUpdate s (splitSpace permob.access_permissions)) s
      ↔ y ∈ s ∨ ∃ row ∈ rows, y ∈ splitSpace row.access_permissions
  | [], s, y => by simp
  | row :: rows, s, y => by
    have step : (row :: rows).foldl
          (fun s permob => setUpdate s (splitSpace permob.access_permissions)) s
        = rows.foldl (fun s permob => setUpdate s (splitSpace permob.access_permissions))
            (setUpdate s (splitSpace row.access_permissions)) := rfl
    rw [step, mem_permsFold rows _ y, mem_setUpdate]
    simp only [List.mem_cons]
    constructor
    · rintro ((hy | hy) | ⟨r, hr, hyr⟩)
      · exact Or.inl hy
      · exact Or.inr ⟨row, Or.inl rfl, hy⟩
      · exact Or.inr ⟨r, Or.inr hr, hyr⟩
    · rintro (hy | ⟨r, hr | hr, hyr⟩)
      · exact Or.inl (Or.inl hy)
      · subst hr; exact Or.inl (Or.inr hyr)
      · exact Or.inr ⟨r, hr, hyr⟩

theorem nodup_permsFold : ∀ (rows : List TeamPermRow) (s : List String),
    s.Nodup →
    (rows.foldl (fun s permob => setUpdate s (splitSpace permob.access_permissions)) s).Nodup
  | [], _, h => h
  | row :: rows, s, h =>
    nodup_permsFold rows (setUpdate s (splitSpace row.access_permissions))
      (nodup_setUpdate _ s h)

/-! ## Lemmas: the team dict and the two team passes -/

/-- The keys of the team dict, in insertion order. -/
def dictKeys (m : TeamMap) : List String := m.map Prod.fst

theorem mem_dictKeys (m : TeamMap) (k : String) :
    k ∈ dictKeys m ↔ ∃ p ∈ m, p.1 = k := by
  simp [dictKeys]

theorem dictContains_iff (m : TeamMap) (k : String) :
    dictContains m k = true ↔ k ∈ dictKeys m := by
  simp [dictContains, dictKeys, List.any_eq_true]

theorem mem_dictInsert {m : TeamMap} {k : String} {v : TeamInfo} :
    ∀ p ∈ dictInsert m k v, p ∈ m ∨ p = (k, v) := by
  intro p hp
  unfold dictInsert at hp
  by_cases hc : dictContains m k = true
  · rw [if_pos hc] at hp
    rcases List.mem_map.mp hp with ⟨q, hq, he⟩
    by_cases hqk : q.1 = k
    · rw [if_pos hqk] at he
      exact Or.inr he.symm
    · rw [if_neg hqk] at he
      exact Or.inl (he ▸ hq)
  · rw [if_neg hc] at hp
    rcases List.mem_append.mp hp with h | h
    · exact Or.inl h
    · exact Or.inr (List.mem_singleton.mp h)

theorem self_mem_dictInsert (m : TeamMap) (k : String) (v : TeamInfo) :
    (k, v) ∈ dictInsert m k v := by
  unfold dictInsert
  by_cases hc : dictContains m k = true
  · rw [if_pos hc]
    obtain ⟨p, hp, hpk⟩ := (mem_dictKeys m k).mp ((dictContains_iff m k).mp hc)
    exact List.mem_map.mpr ⟨p, hp, by rw [if_pos hpk]⟩
  · rw [if_neg hc]
    exact List.mem_append.mpr (Or.inr (List.mem_singleton.mpr rfl))

theorem dictKeys_insert_of_contains {m : TeamMap} {k : String} (v : TeamInfo)
    (h : dictContains m k = true) :
    dictKeys (dictInsert m k v) = dictKeys m := by
  unfold dictInsert
  rw [if_pos h]
  unfold dictKeys
  rw [List.map_map]
  apply List.map_congr_left
  intro p _
  by_cases hpk : p.1 = k
  · simp [hpk]
  · simp [hpk]

theorem dictKeys_insert_of_not_contains {m : TeamMap} {k : String} (v : TeamInfo)
    (h : dictContains m k = false) :
    dictKeys (dictInsert m k v) = dictKeys m ++ [k] := by
  unfold dictInsert
  rw [if_neg (by simp [h])]
  simp [dictKeys]

theorem mem_dictKeys_insert {m : TeamMap} {k : String} {v : TeamInfo} {a : String} :
    a ∈ dictKeys (dictInsert m k v) ↔ a ∈ dictKeys m ∨ a = k := by
  cases hc : dictContains m k
  · rw [dictKeys_insert_of_not_contains v hc]
    simp
  · rw [dictKeys_insert_of_contains v hc]
    constructor
    · exact Or.inl
    · rintro (h | rfl)
      · exact h
      · exact (dictContains_iff m a).mp hc

theorem nodup_dictKeys_insert {m : TeamMap} {k : String} {v : TeamInfo}
    (h : (dictKeys m).Nodup) : (dictKeys (dictInsert m k v)).Nodup := by
  cases hc : dictContains m k
  · rw [dictKeys_insert_of_not_contains v hc]
    refine List.Nodup.append h (List.nodup_singleton k) ?_
    intro a ha hak
    rcases List.mem_singleton.mp hak with rfl
    rw [(dictContains_iff m a).mpr ha] at hc
    cases hc
  · rw [dictKeys_insert_of_contains v hc]
    exact h

/-! ### The direct-membership pass -/

theorem dictKeys_subset_foldl_direct : ∀ (ts : List Team) (m : TeamMap) (a : String),
    a ∈ dictKeys m → a ∈ dictKeys (ts.foldl directStep m)
  | [], _, _, h => h
  | _ :: ts, _, a, h =>
    dictKeys_subset_foldl_direct ts _ a (mem_dictKeys_insert.mpr (Or.inl h))

theorem buid_mem_foldl_direct : ∀ (ts : List Team) (m : TeamMap) (t : Team),
    t ∈ ts → t.buid ∈ dictKeys (ts.foldl directStep m)
  | t0 :: ts, m, t, h => by
    rcases List.mem_cons.mp h with rfl | h
    · exact dictKeys_subset_foldl_direct ts _ _ (mem_dictKeys_insert.mpr (Or.inr rfl))
    · exact buid_mem_foldl_direct ts _ t h

theorem mem_foldl_direct : ∀ (ts : List Team) (m : TeamMap) (p : String × TeamInfo),
    p ∈ ts.foldl directStep m → p ∈ m ∨ ∃ t ∈ ts, p = (t.buid, teamEntry t true)
  | [], _, _, h => Or.inl h
  | t0 :: ts, m, p, h => by
    rcases mem_foldl_direct ts _ p h with h1 | ⟨t, ht, he⟩
    · rcases mem_dictInsert p h1 with h2 | he
      · exact Or.inl h2
      · exact Or.inr ⟨t0, List.mem_cons_self t0 ts, he⟩
    · exact Or.inr ⟨t, List.mem_cons_of_mem t0 ht, he⟩

theorem nodup_dictKeys_foldl_direct : ∀ (ts : List Team) (m : TeamMap),
    (dictKeys m).Nodup → (dictKeys (ts.foldl directStep m)).Nodup
  | [], _, h => h
  | _ :: ts, _, h => nodup_dictKeys_foldl_direct ts _ (nodup_dictKeys_insert h)

theorem foldl_direct_nonempty : ∀ (ts : List Team) (m : TeamMap),
    ts.foldl directStep m = [] → ts = [] ∧ m = []
  | [], m, h => ⟨rfl, h⟩
  | t :: ts, m, h => by
    exfalso
    have := buid_mem_foldl_direct (t :: ts) m t (List.mem_cons_self t ts)
    rw [h] at this
    simp [dictKeys] at this

/-! ### The owned-organizations pass -/

theorem mem_ownedStep_of_mem {m : TeamMap} {p : String × TeamInfo} (t : Team)
    (h : p ∈ m) : p ∈ ownedStep m t := by
  unfold ownedStep
  by_cases hc : dictContains m t.buid = true
  · rwa [if_pos hc]
  · rw [if_neg hc]
    unfold dictInsert
    rw [if_neg hc]
    exact List.mem_append.mpr (Or.inl h)

theorem mem_ownedStep {m : TeamMap} {p : String × TeamInfo} {t : Team}
    (h : p ∈ ownedStep m t) :
    p ∈ m ∨ (p = (t.buid, teamEntry t false) ∧ dictContains m t.buid = false) := by
  unfold ownedStep at h
  by_cases hc : dictContains m t.buid = true
  · rw [if_pos hc] at h
    exact Or.inl h
  · rw [if_neg hc] at h
    rcases mem_dictInsert p h with h1 | he
    · exact Or.inl h1
    · exact Or.inr ⟨he, Bool.eq_false_iff.mpr hc⟩

theorem mem_dictKeys_ownedStep {m : TeamMap} {a : String} {t : Team} :
    a ∈ dictKeys (ownedStep m t) ↔ a ∈ dictKeys m ∨ a = t.buid := by
  unfold ownedStep
  by_cases hc : dictContains m t.buid = true
  · rw [if_pos hc]
    constructor
    · exact Or.inl
    · rintro (h | rfl)
      · exact h
      · exact (dictContains_iff m t.buid).mp hc
  · rw [if_neg hc]
    exact mem_dictKeys_insert

theorem nodup_dictKeys_ownedStep {m : TeamMap} {t : Team}
    (h : (dictKeys m).Nodup) : (dictKeys (ownedStep m t)).Nodup := by
  unfold ownedStep
  by_cases hc : dictContains m t.buid = true
  · rwa [if_pos hc]
  · rw [if_neg hc]
    exact nodup_dictKeys_insert h

theorem mem_foldl_owned_of_mem : ∀ (ts : List Team) (m : TeamMap) (p : String × TeamInfo),
    p ∈ m → p ∈ ts.foldl ownedStep m
  | [], _, _, h => h
  | t :: ts, _, p, h => mem_foldl_owned_of_mem ts _ p (mem_ownedStep_of_mem t h)

theorem dictKeys_subset_foldl_owned : ∀ (ts : List Team) (m : TeamMap) (a : String),
    a ∈ dictKeys m → a ∈ dictKeys (ts.foldl ownedStep m)
  | [], _, _, h => h
  | _ :: ts, _, a, h =>
    dictKeys_subset_foldl_owned ts _ a (mem_dictKeys_ownedStep.mpr (Or.inl h))

theorem buid_mem_foldl_owned : ∀ (ts : List Team) (m : TeamMap) (t : Team),
    t ∈ ts → t.buid ∈ dictKeys (ts.foldl ownedStep m)
  | t0 :: ts, m, t, h => by
    rcases List.mem_cons.mp h with rfl | h
    · exact dictKeys_subset_foldl_owned ts _ _ (mem_dictKeys_ownedStep.mpr (Or.inr rfl))
    · exact buid_mem_foldl_owned ts _ t h

theorem mem_foldl_owned : ∀ (ts : List Team) (m : TeamMap) (p : String × TeamInfo),
    p ∈ ts.foldl ownedStep m →
    p ∈ m ∨ ∃ t ∈ ts, p = (t.buid, teamEntry t false) ∧ p.1 ∉ dictKeys m
  | [], _, _, h => Or.inl h
  | t0 :: ts, m, p, h => by
    rcases mem_foldl_owned ts _ p h with h1 | ⟨t, ht, he, hk⟩
    · rcases mem_ownedStep h1 with h2 | ⟨he, hc⟩
      · exact Or.inl h2
      · refine Or.inr ⟨t0, List.mem_cons_self t0 ts, he, ?_⟩
        intro hmem
        rw [he] at hmem
        rw [(dictContains_iff m t0.buid).mpr hmem] at hc
        cases hc
    · refine Or.inr ⟨t, List.mem_cons_of_mem t0 ht, he, ?_⟩
      intro hmem
      exact hk (mem_dictKeys_ownedStep.mpr (Or.inl hmem))

theorem nodup_dictKeys_foldl_owned : ∀ (ts : List Team) (m : TeamMap),
    (dictKeys m).Nodup → (dictKeys (ts.foldl ownedStep m)).Nodup
  | [], _, h => h
  | _ :: ts, _, h => nodup_dictKeys_foldl_owned ts _ (nodup_dictKeys_ownedStep h)

theorem mem_passOwned_of_mem : ∀ (orgs : List Organization) (m : TeamMap)
    (p : String × TeamInfo),
    p ∈ m → p ∈ orgs.foldl (fun m org => org.teams.foldl ownedStep m) m
  | [], _, _, h => h
  | org :: orgs, _, p, h =>
    mem_passOwned_of_mem orgs _ p (mem_foldl_owned_of_mem org.teams _ p h)

theorem dictKeys_subset_passOwned : ∀ (orgs : List Organization) (m : TeamMap)
    (a : String),
    a ∈ dictKeys m → a ∈ dictKeys (orgs.foldl (fun m org => org.teams.foldl ownedStep m) m)
  | [], _, _, h => h
  | org :: orgs, _, a, h =>
    dictKeys_subset_passOwned orgs _ a (dictKeys_subset_foldl_owned org.teams _ a h)

theorem buid_mem_passOwned : ∀ (orgs : List Organization) (m : TeamMap)
    (org : Organization) (t : Team),
    org ∈ orgs → t ∈ org.teams →
    t.buid ∈ dictKeys (orgs.foldl (fun m org => org.teams.foldl ownedStep m) m)
  | org0 :: orgs, m, org, t, ho, ht => by
    rcases List.mem_cons.mp ho with rfl | ho
    · exact dictKeys_subset_passOwned orgs _ _ (buid_mem_foldl_owned org.teams m t ht)
    · exact buid_mem_passOwned orgs _ org t ho ht

theorem mem_passOwned : ∀ (orgs : List Organization) (m : TeamMap)
    (p : String × TeamInfo),
    p ∈ orgs.foldl (fun m org => org.teams.foldl ownedStep m) m →
    p ∈ m ∨ ∃ org ∈ orgs, ∃ t ∈ org.teams,
      p = (t.buid, teamEntry t false) ∧ p.1 ∉ dictKeys m
  | [], _, _, h => Or.inl h
  | org0 :: orgs, m, p, h => by
    rcases mem_passOwned orgs _ p h with h1 | ⟨o, ho, t, ht, he, hk⟩
    · rcases mem_foldl_owned org0.teams m p h1 with h2 | ⟨t, ht, he, hk⟩
      · exact Or.inl h2
      · exact Or.inr ⟨org0, List.mem_cons_self org0 orgs, t, ht, he, hk⟩
    · refine Or.inr ⟨o, List.mem_cons_of_mem org0 ho, t, ht, he, ?_⟩
      intro hmem
      exact hk (dictKeys_subset_foldl_owned org0.teams m _ hmem)

theorem nodup_dictKeys_passOwned : ∀ (orgs : List Organization) (m : TeamMap),
    (dictKeys m).Nodup →
    (dictKeys (orgs.foldl (fun m org => org.teams.foldl ownedStep m) m)).Nodup
  | [], _, h => h
  | org :: orgs, _, h =>
    nodup_dictKeys_passOwned orgs _ (nodup_dictKeys_foldl_owned org.teams _ h)

/-! ### The combined team map -/

theorem teamsGate2_imp_gate1 {scope : List String} (h : teamsGate2 scope) :
    teamsGate1 scope := by
  rcases h with h | h | h
  · exact Or.inl h
  · exact Or.inr (Or.inr (Or.inl h))
  · exact Or.inr (Or.inr (Or.inr (Or.inr h)))

theorem teamsPassDirect_nil {user : User} (h : user.teams = []) :
    teamsPassDirect user [] = [] := by
  unfold teamsPassDirect
  rw [h]
  rfl

theorem mem_teamMap {user : User} {scope : List String} {p : String × TeamInfo}
    (hp : p ∈ teamMap user scope) :
    (∃ t ∈ user.teams, p = (t.buid, teamEntry t true)) ∨
      ∃ org ∈ user.organizations_owned, ∃ t ∈ org.teams,
        p = (t.buid, teamEntry t false) ∧ ∀ t' ∈ user.teams, t'.buid ≠ p.1 := by
  unfold teamMap at hp
  by_cases h2 : teamsGate2 scope
  · rw [if_pos h2] at hp
    have h1 : teamsGate1 scope := teamsGate2_imp_gate1 h2
    unfold teamMap1 at hp
    rw [if_pos h1] at hp
    rcases mem_passOwned _ _ p hp with hm | ⟨org, ho, t, ht, he, hk⟩
    · rcases mem_foldl_direct _ _ p hm with hnil | ⟨t, ht, he⟩
      · exact (List.not_mem_nil p hnil).elim
      · exact Or.inl ⟨t, ht, he⟩
    · refine Or.inr ⟨org, ho, t, ht, he, ?_⟩
      intro t' ht' hbe
      exact hk (hbe ▸ buid_mem_foldl_direct _ [] t' ht')
  · rw [if_neg h2] at hp
    unfold teamMap1 at hp
    by_cases h1 : teamsGate1 scope
    · rw [if_pos h1] at hp
      rcases mem_foldl_direct _ _ p hp with hnil | ⟨t, ht, he⟩
      · exact (List.not_mem_nil p hnil).elim
      · exact Or.inl ⟨t, ht, he⟩
    · rw [if_neg h1] at hp
      exact (List.not_mem_nil p hp).elim

theorem teamMap_covers_direct {user : User} {scope : List String}
    (h1 : teamsGate1 scope) :
    ∀ t ∈ user.teams, t.buid ∈ dictKeys (teamMap user scope) := by
  intro t ht
  unfold teamMap teamMap1
  rw [if_pos h1]
  by_cases h2 : teamsGate2 scope
  · rw [if_pos h2]
    exact dictKeys_subset_passOwned _ _ _ (buid_mem_foldl_direct _ [] t ht)
  · rw [if_neg h2]
    exact buid_mem_foldl_direct _ [] t ht

theorem nodup_dictKeys_teamMap1 (user : User) (scope : List String) :
    (dictKeys (teamMap1 user scope)).Nodup := by
  unfold teamMap1
  by_cases h1 : teamsGate1 scope
  · rw [if_pos h1]
    exact nodup_dictKeys_foldl_direct _ _ List.nodup_nil
  · rw [if_neg h1]
    exact List.nodup_nil

theorem nodup_dictKeys_teamMap (user : User) (scope : List String) :
    (dictKeys (teamMap user scope)).Nodup := by
  unfold teamMap
  by_cases h2 : teamsGate2 scope
  · rw [if_pos h2]
    exact nodup_dictKeys_passOwned _ _ (nodup_dictKeys_teamMap1 user scope)
  · rw [if_neg h2]
    exact nodup_dictKeys_teamMap1 user scope

theorem teamMap_buid_eq_key {user : User} {scope : List String} :
    ∀ p ∈ teamMap user scope, (p : String × TeamInfo).2.buid = p.1 := by
  intro p hp
  rcases mem_teamMap hp with ⟨t, _, rfl⟩ | ⟨_, _, t, _, rfl, _⟩ <;> rfl

theorem teamMap_member_iff {user : User} {scope : List String} :
    ∀ p ∈ teamMap user scope,
      ((p : String × TeamInfo).2.member = true ↔ ∃ t ∈ user.teams, t.buid = p.1) := by
  intro p hp
  rcases mem_teamMap hp with ⟨t, ht, rfl⟩ | ⟨org, ho, t, ht, rfl, hnone⟩
  · exact ⟨fun _ => ⟨t, ht, rfl⟩, fun _ => rfl⟩
  · constructor
    · intro hmem
      exact (Bool.false_ne_true hmem).elim
    · rintro ⟨t', ht', hbe⟩
      exact (hnone t' ht' hbe).elim

theorem teamMap1_ne_nil_iff (user : User) (scope : List String) :
    teamMap1 user scope ≠ [] ↔ teamsGate1 scope ∧ user.teams ≠ [] := by
  unfold teamMap1
  by_cases h1 : teamsGate1 scope
  · rw [if_pos h1]
    constructor
    · intro hne
      refine ⟨h1, fun hteams => hne ?_⟩
      exact teamsPassDirect_nil hteams
    · rintro ⟨-, hteams⟩
      obtain ⟨t, ht⟩ := List.exists_mem_of_ne_nil _ hteams
      intro hnil
      have hkey : t.buid ∈ dictKeys (teamsPassDirect user []) :=
        buid_mem_foldl_direct user.teams [] t ht
      rw [hnil] at hkey
      exact List.not_mem_nil _ hkey
  · rw [if_neg h1]
    simp [h1]

theorem teamMap_ne_nil_iff (user : User) (scope : List String) :
    teamMap user scope ≠ [] ↔
      (teamsGate1 scope ∧ user.teams ≠ []) ∨
        (teamsGate2 scope ∧ ∃ org ∈ user.organizations_owned, org.teams ≠ []) := by
  unfold teamMap
  by_cases h2 : teamsGate2 scope
  · rw [if_pos h2]
    constructor
    · intro hne
      obtain ⟨p, hp⟩ := List.exists_mem_of_ne_nil _ hne
      rcases mem_passOwned _ _ p hp with hm | ⟨org, ho, t, ht, -, -⟩
      · left
        rw [← teamMap1_ne_nil_iff]
        intro hnil
        rw [hnil] at hm
        exact List.not_mem_nil p hm
      · right
        refine ⟨h2, org, ho, fun h0 => ?_⟩
        rw [h0] at ht
        exact List.not_mem_nil t ht
    · rintro (⟨h1, hteams⟩ | ⟨-, org, ho, hneteams⟩)
      · obtain ⟨t, ht⟩ := List.exists_mem_of_ne_nil _ hteams
        intro hnil
        have hkey : t.buid ∈ dictKeys (teamsPassOwned user (teamMap1 user scope)) := by
          apply dictKeys_subset_passOwned
          unfold teamMap1
          rw [if_pos h1]
          exact buid_mem_foldl_direct _ [] t ht
        rw [hnil] at hkey
        exact List.not_mem_nil _ hkey
      · obtain ⟨t, ht⟩ := List.exists_mem_of_ne_nil _ hneteams
        intro hnil
        have hkey : t.buid ∈ dictKeys (teamsPassOwned user (teamMap1 user scope)) :=
          buid_mem_passOwned _ _ org t ho ht
        rw [hnil] at hkey
        exact List.not_mem_nil _ hkey
  · rw [if_neg h2]
    rw [teamMap1_ne_nil_iff]
    constructor
    · exact Or.inl
    · rintro (h | ⟨h2', -⟩)
      · exact h
      · exact absurd h2' h2

/-! ### Projections of `get_userinfo` -/

theorem get_userinfo_idBlock (db : Database) (user : User) (auth_client : AuthClient)
    (scope : List String) (user_session : Option String) (get_permissions : Bool) :
    (get_userinfo db user auth_client scope user_session get_permissions).idBlock
      = if "*" ∈ scope ∨ "id" ∈ scope ∨ "id/*" ∈ scope then
          some { userid := user.buid, buid := user.buid, uuid := user.uuid,
                 username := user.username, fullname := user.fullname,
                 timezone := user.timezone, avatar := user.avatar,
                 oldids := user.oldids.map (fun o => o.buid),
                 olduuids := user.oldids.map (fun o => o.uuid) }
        else none := rfl

theorem get_userinfo_email (db : Database) (user : User) (auth_client : AuthClient)
    (scope : List String) (user_session : Option String) (get_permissions : Bool) :
    (get_userinfo db user auth_client scope user_session get_permissions).email
      = if "*" ∈ scope ∨ "email" ∈ scope ∨ "email/*" ∈ scope then some user.email
        else none := rfl

theorem get_userinfo_phone (db : Database) (user : User) (auth_client : AuthClient)
    (scope : List String) (user_session : Option String) (get_permissions : Bool) :
    (get_userinfo db user auth_client scope user_session get_permissions).phone
      = if "*" ∈ scope ∨ "phone" ∈ scope ∨ "phone/*" ∈ scope then some user.phone
        else none := rfl

theorem get_userinfo_organizations (db : Database) (user : User)
    (auth_client : AuthClient) (scope : List String) (user_session : Option String)
    (get_permissions : Bool) :
    (get_userinfo db user auth_client scope user_session get_permissions).organizations
      = if "*" ∈ scope ∨ "organizations" ∈ scope ∨ "organizations/*" ∈ scope then
          some { owner := user.organizations_owned.map orgInfoOf,
                 member := user.organizations_memberof.map orgInfoOf,
                 all := user.organizations.map orgInfoOf }
        else none := rfl

theorem get_userinfo_teams (db : Database) (user : User) (auth_client : AuthClient)
    (scope : List String) (user_session : Option String) (get_permissions : Bool) :
    (get_userinfo db user auth_client scope user_session get_permissions).teams
      = if (teamMap user scope).isEmpty then none
        else some ((teamMap user scope).map Prod.snd) := rfl

theorem get_userinfo_permissions (db : Database) (user : User)
    (auth_client : AuthClient) (scope : List String) (user_session : Option String)
    (get_permissions : Bool) :
    (get_userinfo db user auth_client scope user_session get_permissions).permissions
      = if get_permissions then permissions_of db auth_client user else none := rfl

/-- `Option.isSome` of a one-sided conditional. -/
theorem isSome_if {α : Type} {c : Prop} [Decidable c] {a : α} :
    (if c then some a else none).isSome = true ↔ c := by
  by_cases h : c <;> simp [h]

/-! ## Concrete fixtures for witnesses and counterexamples -/

/-- Fixture team: the designated owners team of the fixture organization. -/
def fixTeamOwners : Team :=
  { buid := "t1", uuid := "tu1", title := "Owners",
    organization := { buid := "o1", uuid := "ou1", ownersBuid := "t1" } }

/-- Fixture team the user does not directly belong to. -/
def fixTeamDevs : Team :=
  { buid := "t2", uuid := "tu2", title := "Devs",
    organization := { buid := "o1", uuid := "ou1", ownersBuid := "t1" } }

/-- Fixture organization owned by the fixture user. -/
def fixOrg : Organization :=
  { buid := "o1", uuid := "ou1", name := "acme", title := "Acme",
    teams := [fixTeamOwners, fixTeamDevs] }

/-- Fixture user: direct member of the owners team and owner of the
fixture organization. -/
def fixUser : User :=
  { buid := "u1", uuid := "uu1", username := "alice", fullname := "Alice A",
    timezone := "UTC", avatar := "", oldids := [], email := "a@x.com",
    phone := "+100", teams := [fixTeamOwners],
    organizations_owned := [fixOrg], organizations_memberof := [fixOrg],
    organizations := [fixOrg] }

/-- Fixture calling client: organization-owned, namespace `crm`. -/
def fixClient : AuthClient :=
  { buid := "c1", title := "CRM",
    owner := { buid := "co", uuid := "cou", pickername := "CRM Owner" },
    website := "https://crm.example", trusted := false, nameSpace := "crm",
    user := none }

/-- Fixture user-owned client with no direct grant rows in the fixture
database. -/
def fixUserOwnedClient : AuthClient :=
  { buid := "c2", title := "Pad",
    owner := { buid := "po", uuid := "pou", pickername := "Pad Owner" },
    website := "https://pad.example", trusted := true, nameSpace := "pad",
    user := some "u9" }

/-- Fixture token: owned by the user-owned client, held for the fixture
user, with namespaced scope entries but no namespace wildcard. -/
def fixToken : AuthToken :=
  { user := some fixUser, auth_client := fixUserOwnedClient,
    effective_scope := ["crm:contacts", "crm:deals", "id"] }

/-- Fixture token whose scope carries the `crm:*` namespace wildcard. -/
def fixTokenStar : AuthToken :=
  { user := some fixUser, auth_client := fixUserOwnedClient,
    effective_scope := ["crm:*", "id"] }

/-- Fixture database: two team-grant rows for the calling client and the
two fixture tokens. -/
def fixDb : Database :=
  { userPerms := [],
    teamPerms :=
      [{ clientBuid := "c1", teamBuid := "t1", access_permissions := "edit view" },
       { clientBuid := "c1", teamBuid := "t2", access_permissions := "admin" }],
    tokens := [("TOK", fixToken), ("TOKSTAR", fixTokenStar)] }

/-- The fixture database with its team-grant rows listed in the opposite
order. -/
def fixDbPermuted : Database :=
  { userPerms := [],
    teamPerms :=
      [{ clientBuid := "c1", teamBuid := "t2", access_permissions := "admin" },
       { clientBuid := "c1", teamBuid := "t1", access_permissions := "edit view" }],
    tokens := [("TOK", fixToken), ("TOKSTAR", fixTokenStar)] }

/-! ## Success equations of the verification endpoints -/

/-- `token_verify` once every check passes. -/
theorem token_verify_ok (db : Database) (caller : AuthClient) (tok : String)
    (authtoken : AuthToken)
    (htok : tok ≠ "") (hns : caller.nameSpace ≠ "")
    (hget : AuthToken.get db tok = some authtoken)
    (hscope : caller.nameSpace ++ ":" ++ "*" ∈ authtoken.effective_scope ∨
      caller.nameSpace ++ ":*" ∈ authtoken.effective_scope) :
    token_verify db caller tok "*" = .apiOk
      { validity := 120,
        userinfo := authtoken.user.map
          (fun u => get_userinfo db u caller authtoken.effective_scope none true),
        clientinfo :=
          { title := authtoken.auth_client.title,
            userid := authtoken.auth_client.owner.buid,
            buid := authtoken.auth_client.owner.buid,
            uuid := authtoken.auth_client.owner.uuid,
            owner_title := authtoken.auth_client.owner.pickername,
            website := authtoken.auth_client.website,
            key := authtoken.auth_client.buid,
            trusted := authtoken.auth_client.trusted,
            scope := none } } := by
  unfold token_verify
  rw [if_neg (by decide), if_neg (by decide), if_neg htok, if_neg hns, hget]
  refine if_neg ?_
  rintro ⟨hA, hB⟩
  rcases hscope with h | h
  · exact hA h
  · exact hB h

/-- `token_get_scope` once every check passes. -/
theorem token_get_scope_ok (db : Database) (caller : AuthClient) (tok : String)
    (authtoken : AuthToken)
    (htok : tok ≠ "") (hns : caller.nameSpace ≠ "")
    (hget : AuthToken.get db tok = some authtoken)
    (hne : clientResourcesLoop (caller.nameSpace ++ ":") authtoken.effective_scope ≠ []) :
    token_get_scope db caller tok = .apiOk
      { validity := 120,
        userinfo := authtoken.user.map
          (fun u => get_userinfo db u caller authtoken.effective_scope none true),
        clientinfo :=
          { title := authtoken.auth_client.title,
            userid := authtoken.auth_client.owner.buid,
            buid := authtoken.auth_client.owner.buid,
            uuid := authtoken.auth_client.owner.uuid,
            owner_title := authtoken.auth_client.owner.pickername,
            website := authtoken.auth_client.website,
            key := authtoken.auth_client.buid,
            trusted := authtoken.auth_client.trusted,
            scope := some (clientResourcesLoop (caller.nameSpace ++ ":")
              authtoken.effective_scope) } } := by
  unfold token_get_scope
  rw [if_neg htok, if_neg hns, hget]
  exact if_neg (by simpa [List.isEmpty_iff] using hne)

/-! ## Claims -/

/-- C2: `token_verify` performs its checks in this order: a missing
(falsy) `resource` fails 400-class with `no_resource`; a resource other
than the literal `"*"` fails 400-class with `unknown_resource`; a missing
token fails 400-class with `no_token`; these three hold for every
database and caller, hence before any namespace or token lookup.  Then an
empty caller namespace fails HTTP-200 `status:error` with
`client_no_resources`, a token resolving to no record fails HTTP-200 with
`no_token`, and a scope containing neither `namespace:resource` nor
`namespace:*` fails HTTP-200 with `access_denied`.  The response is
400-class exactly for the three parameter failures. -/
theorem C2_token_verify_check_order :
    (∀ (db : Database) (caller : AuthClient) (tok : String),
      token_verify db caller tok "" = .resourceError "no_resource") ∧
    (∀ (db : Database) (caller : AuthClient) (tok r : String), r ≠ "" → r ≠ "*" →
      token_verify db caller tok r = .resourceError "unknown_resource") ∧
    (∀ (db : Database) (caller : AuthClient),
      token_verify db caller "" "*" = .resourceError "no_token") ∧
    (∀ (db : Database) (caller : AuthClient) (tok : String),
      tok ≠ "" → caller.nameSpace = "" →
      token_verify db caller tok "*" = .apiError "client_no_resources") ∧
    (∀ (db : Database) (caller : AuthClient) (tok : String),
      tok ≠ "" → caller.nameSpace ≠ "" → AuthToken.get db tok = none →
      token_verify db caller tok "*" = .apiError "no_token") ∧
    (∀ (db : Database) (caller : AuthClient) (tok : String) (authtoken : AuthToken),
      tok ≠ "" → caller.nameSpace ≠ "" → AuthToken.get db tok = some authtoken →
      caller.nameSpace ++ ":" ++ "*" ∉ authtoken.effective_scope →
      caller.nameSpace ++ ":*" ∉ authtoken.effective_scope →
      token_verify db caller tok "*" = .apiError "access_denied") ∧
    (∀ (db : Database) (caller : AuthClient) (tok r : String),
      (token_verify db caller tok r).statusCode = 400 ↔ (r = "" ∨ r ≠ "*" ∨ tok = "")) := by
  have h1 : ∀ (db : Database) (caller : AuthClient) (tok : String),
      token_verify db caller tok "" = .resourceError "no_resource" := by
    intro db caller tok
    unfold token_verify
    rw [if_pos rfl]
    rfl
  have h2 : ∀ (db : Database) (caller : AuthClient) (tok r : String), r ≠ "" → r ≠ "*" →
      token_verify db caller tok r = .resourceError "unknown_resource" := by
    intro db caller tok r hr0 hr1
    unfold token_verify
    rw [if_neg hr0, if_pos hr1]
    rfl
  have h3 : ∀ (db : Database) (caller : AuthClient),
      token_verify db caller "" "*" = .resourceError "no_token" := by
    intro db caller
    unfold token_verify
    rw [if_neg (by decide), if_neg (by decide), if_pos rfl]
    rfl
  have h4 : ∀ (db : Database) (caller : AuthClient) (tok : String),
      tok ≠ "" → caller.nameSpace = "" →
      token_verify db caller tok "*" = .apiError "client_no_resources" := by
    intro db caller tok htok hns
    unfold token_verify
    rw [if_neg (by decide), if_neg (by decide), if_neg htok, if_pos hns]
  have h5 : ∀ (db : Database) (caller : AuthClient) (tok : String),
      tok ≠ "" → caller.nameSpace ≠ "" → AuthToken.get db tok = none →
      token_verify db caller tok "*" = .apiError "no_token" := by
    intro db caller tok htok hns hget
    unfold token_verify
    rw [if_neg (by decide), if_neg (by decide), if_neg htok, if_neg hns, hget]
  have h6 : ∀ (db : Database) (caller : AuthClient) (tok : String) (authtoken : AuthToken),
      tok ≠ "" → caller.nameSpace ≠ "" → AuthToken.get db tok = some authtoken →
      caller.nameSpace ++ ":" ++ "*" ∉ authtoken.effective_scope →
      caller.nameSpace ++ ":*" ∉ authtoken.effective_scope →
      token_verify db caller tok "*" = .apiError "access_denied" := by
    intro db caller tok authtoken htok hns hget hA hB
    unfold token_verify
    rw [if_neg (by decide), if_neg (by decide), if_neg htok, if_neg hns, hget]
    exact if_pos ⟨hA, hB⟩
  refine ⟨h1, h2, h3, h4, h5, h6, ?_⟩
  intro db caller tok r
  by_cases hr0 : r = ""
  · subst hr0
    rw [h1]
    exact ⟨fun _ => Or.inl rfl, fun _ => rfl⟩
  · by_cases hr1 : r = "*"
    · subst hr1
      by_cases htok : tok = ""
      · subst htok
        rw [h3]
        exact ⟨fun _ => Or.inr (Or.inr rfl), fun _ => rfl⟩
      · have h200 : (token_verify db caller tok "*").statusCode = 200 := by
          unfold token_verify
          rw [if_neg (by decide), if_neg (by decide), if_neg htok]
          by_cases hns : caller.nameSpace = ""
          · rw [if_pos hns]
            rfl
          · rw [if_neg hns]
            cases hget : AuthToken.get db tok with
            | none => rfl
            | some authtoken =>
              split <;> first
                | rfl
                | (split <;> rfl)
        rw [h200]
        constructor
        · intro h
          exact absurd h (by decide)
        · rintro (h | h | h)
          · exact absurd h (by decide)
          · exact absurd rfl h
          · exact absurd h htok
    · rw [h2 db caller tok r hr0 hr1]
      exact ⟨fun _ => Or.inr (Or.inl hr1), fun _ => rfl⟩

/-- C2 witness: the `unknown_resource` branch at a concrete
non-wildcard resource. -/
theorem C2_token_verify_check_order_witness :
    token_verify fixDb fixClient "TOK" "contacts" = .resourceError "unknown_resource" :=
  C2_token_verify_check_order.2.1 fixDb fixClient "TOK" "contacts" (by decide) (by decide)

/-- C3: when every check of `token_verify` passes, the success response
has `validity` 120, a `userinfo` present exactly when the token has a
user (the projector applied to the token's effective scope with
permissions included), and a `clientinfo` describing the token's owning
client (title, owner buid/uuid, owner display name, website, client key,
trusted flag) — its fields are read from `authtoken.auth_client`, not
from the calling client. -/
theorem C3_token_verify_success (db : Database) (caller : AuthClient)
    (tok : String) (authtoken : AuthToken)
    (htok : tok ≠ "") (hns : caller.nameSpace ≠ "")
    (hget : AuthToken.get db tok = some authtoken)
    (hscope : caller.nameSpace ++ ":" ++ "*" ∈ authtoken.effective_scope ∨
      caller.nameSpace ++ ":*" ∈ authtoken.effective_scope) :
    token_verify db caller tok "*" = .apiOk
      { validity := 120,
        userinfo := authtoken.user.map
          (fun u => get_userinfo db u caller authtoken.effective_scope none true),
        clientinfo :=
          { title := authtoken.auth_client.title,
            userid := authtoken.auth_client.owner.buid,
            buid := authtoken.auth_client.owner.buid,
            uuid := authtoken.auth_client.owner.uuid,
            owner_title := authtoken.auth_client.owner.pickername,
            website := authtoken.auth_client.website,
            key := authtoken.auth_client.buid,
            trusted := authtoken.auth_client.trusted,
            scope := none } } ∧
    (∀ p, token_verify db caller tok "*" = .apiOk p →
      p.userinfo.isSome = authtoken.user.isSome ∧ p.validity = 120) := by
  have hmain : token_verify db caller tok "*" = .apiOk
      { validity := 120,
        userinfo := authtoken.user.map
          (fun u => get_userinfo db u caller authtoken.effective_scope none true),
        clientinfo :=
          { title := authtoken.auth_client.title,
            userid := authtoken.auth_client.owner.buid,
            buid := authtoken.auth_client.owner.buid,
            uuid := authtoken.auth_client.owner.uuid,
            owner_title := authtoken.auth_client.owner.pickername,
            website := authtoken.auth_client.website,
            key := authtoken.auth_client.buid,
            trusted := authtoken.auth_client.trusted,
            scope := none } } :=
    token_verify_ok db caller tok authtoken htok hns hget hscope
  refine ⟨hmain, ?_⟩
  intro p hp
  rw [hmain] at hp
  injection hp with h
  subst h
  exact ⟨Option.isSome_map' , rfl⟩

/-- C3 witness: a concrete passing verification against the wildcard
token. -/
theorem C3_token_verify_success_witness :
    token_verify fixDb fixClient "TOKSTAR" "*" = .apiOk
      { validity := 120,
        userinfo := fixTokenStar.user.map
          (fun u => get_userinfo fixDb u fixClient fixTokenStar.effective_scope none true),
        clientinfo :=
          { title := fixTokenStar.auth_client.title,
            userid := fixTokenStar.auth_client.owner.buid,
            buid := fixTokenStar.auth_client.owner.buid,
            uuid := fixTokenStar.auth_client.owner.uuid,
            owner_title := fixTokenStar.auth_client.owner.pickername,
            website := fixTokenStar.auth_client.website,
            key := fixTokenStar.auth_client.buid,
            trusted := fixTokenStar.auth_client.trusted,
            scope := none } } :=
  (C3_token_verify_success fixDb fixClient "TOKSTAR" fixTokenStar
    (by decide) (by decide) (by decide) (Or.inr (by decide))).1

/-- C4: after the token-presence, namespace and token-lookup checks,
`token_get_scope` computes exactly the suffixes `r` with
`namespace ++ ":" ++ r` in the token's effective scope, in scope order
with the namespace prefix stripped (the `filterMap` form); an empty list
fails `status:error no_access`; otherwise the success response has the
same validity/userinfo/clientinfo shape as `token_verify` plus the suffix
list under `scope`. -/
theorem C4_token_get_scope (db : Database) (caller : AuthClient) (tok : String)
    (authtoken : AuthToken)
    (htok : tok ≠ "") (hns : caller.nameSpace ≠ "")
    (hget : AuthToken.get db tok = some authtoken) :
    (∀ r : String,
      r ∈ clientResourcesLoop (caller.nameSpace ++ ":") authtoken.effective_scope ↔
        caller.nameSpace ++ ":" ++ r ∈ authtoken.effective_scope) ∧
    clientResourcesLoop (caller.nameSpace ++ ":") authtoken.effective_scope
      = authtoken.effective_scope.filterMap
          (fun item =>
            if strStartswith item (caller.nameSpace ++ ":") then
              some (strDrop item (caller.nameSpace ++ ":").length)
            else none) ∧
    (clientResourcesLoop (caller.nameSpace ++ ":") authtoken.effective_scope = [] →
      token_get_scope db caller tok = .apiError "no_access") ∧
    (clientResourcesLoop (caller.nameSpace ++ ":") authtoken.effective_scope ≠ [] →
      token_get_scope db caller tok = .apiOk
        { validity := 120,
          userinfo := authtoken.user.map
            (fun u => get_userinfo db u caller authtoken.effective_scope none true),
          clientinfo :=
            { title := authtoken.auth_client.title,
              userid := authtoken.auth_client.owner.buid,
              buid := authtoken.auth_client.owner.buid,
              uuid := authtoken.auth_client.owner.uuid,
              owner_title := authtoken.auth_client.owner.pickername,
              website := authtoken.auth_client.website,
              key := authtoken.auth_client.buid,
              trusted := authtoken.auth_client.trusted,
              scope := some (clientResourcesLoop (caller.nameSpace ++ ":")
                authtoken.effective_scope) } }) := by
  refine ⟨fun r => mem_clientResourcesLoop _ _ r,
    clientResourcesLoop_eq _ _, ?_, ?_⟩
  · intro h
    unfold token_get_scope
    rw [if_neg htok, if_neg hns, hget]
    exact if_pos (by rw [h]; rfl)
  · intro h
    exact token_get_scope_ok db caller tok authtoken htok hns hget h

/-- C4 witness: the scenario token with scope `crm:contacts, crm:deals`
yields suffixes `contacts, deals` in order, and the success response. -/
theorem C4_token_get_scope_witness :
    clientResourcesLoop ("crm" ++ ":") fixToken.effective_scope = ["contacts", "deals"] ∧
    token_get_scope fixDb fixClient "TOK" = .apiOk
      { validity := 120,
        userinfo := fixToken.user.map
          (fun u => get_userinfo fixDb u fixClient fixToken.effective_scope none true),
        clientinfo :=
          { title := fixToken.auth_client.title,
            userid := fixToken.auth_client.owner.buid,
            buid := fixToken.auth_client.owner.buid,
            uuid := fixToken.auth_client.owner.uuid,
            owner_title := fixToken.auth_client.owner.pickername,
            website := fixToken.auth_client.website,
            key := fixToken.auth_client.buid,
            trusted := fixToken.auth_client.trusted,
            scope := some (clientResourcesLoop ("crm" ++ ":")
              fixToken.effective_scope) } } :=
  ⟨by decide,
    (C4_token_get_scope fixDb fixClient "TOK" fixToken
      (by decide) (by decide) (by decide)).2.2.2 (by decide)⟩

/-- C7: because `token_verify` rejects every resource other than the
literal `"*"`, its decision reduces to membership of `namespace:*`: a
token whose scope has namespaced entries but not `namespace:*` is denied
by `token_verify` with `access_denied`, while `token_get_scope` on the
same token and calling client succeeds and returns exactly those
suffixes. -/
theorem C7_verify_denies_get_scope_grants (db : Database) (caller : AuthClient)
    (tok : String) (authtoken : AuthToken)
    (htok : tok ≠ "") (hns : caller.nameSpace ≠ "")
    (hget : AuthToken.get db tok = some authtoken)
    (hnostar : caller.nameSpace ++ ":*" ∉ authtoken.effective_scope)
    (hsome : ∃ r : String, caller.nameSpace ++ ":" ++ r ∈ authtoken.effective_scope) :
    token_verify db caller tok "*" = .apiError "access_denied" ∧
    (∀ r : String, r ≠ "*" → r ≠ "" →
      token_verify db caller tok r = .resourceError "unknown_resource") ∧
    token_get_scope db caller tok = .apiOk
      { validity := 120,
        userinfo := authtoken.user.map
          (fun u => get_userinfo db u caller authtoken.effective_scope none true),
        clientinfo :=
          { title := authtoken.auth_client.title,
            userid := authtoken.auth_client.owner.buid,
            buid := authtoken.auth_client.owner.buid,
            uuid := authtoken.auth_client.owner.uuid,
            owner_title := authtoken.auth_client.owner.pickername,
            website := authtoken.auth_client.website,
            key := authtoken.auth_client.buid,
            trusted := authtoken.auth_client.trusted,
            scope := some (clientResourcesLoop (caller.nameSpace ++ ":")
              authtoken.effective_scope) } } ∧
    (∀ r : String,
      r ∈ clientResourcesLoop (caller.nameSpace ++ ":") authtoken.effective_scope ↔
        caller.nameSpace ++ ":" ++ r ∈ authtoken.effective_scope) := by
  have hstar : caller.nameSpace ++ ":" ++ "*" ∉ authtoken.effective_scope := by
    rw [str_append_colon_star]
    exact hnostar
  have hne : clientResourcesLoop (caller.nameSpace ++ ":") authtoken.effective_scope ≠ [] := by
    obtain ⟨r, hr⟩ := hsome
    intro hnil
    have hmem := (mem_clientResourcesLoop (caller.nameSpace ++ ":")
      authtoken.effective_scope r).mpr hr
    rw [hnil] at hmem
    exact List.not_mem_nil r hmem
  refine ⟨?_, ?_, ?_, fun r => mem_clientResourcesLoop _ _ r⟩
  · unfold token_verify
    rw [if_neg (by decide), if_neg (by decide), if_neg htok, if_neg hns, hget]
    exact if_pos ⟨hstar, hnostar⟩
  · intro r hr1 hr0
    unfold token_verify
    rw [if_neg hr0, if_pos hr1]
    rfl
  · exact token_get_scope_ok db caller tok authtoken htok hns hget hne

/-- C7 witness: the scenario token (`crm:contacts`, `crm:deals`, no
`crm:*`) is denied by verify and granted by get_scope. -/
theorem C7_verify_denies_get_scope_grants_witness :
    token_verify fixDb fixClient "TOK" "*" = .apiError "access_denied" ∧
    token_get_scope fixDb fixClient "TOK" = .apiOk
      { validity := 120,
        userinfo := fixToken.user.map
          (fun u => get_userinfo fixDb u fixClient fixToken.effective_scope none true),
        clientinfo :=
          { title := fixToken.auth_client.title,
            userid := fixToken.auth_client.owner.buid,
            buid := fixToken.auth_client.owner.buid,
            uuid := fixToken.auth_client.owner.uuid,
            owner_title := fixToken.auth_client.owner.pickername,
            website := fixToken.auth_client.website,
            key := fixToken.auth_client.buid,
            trusted := fixToken.auth_client.trusted,
            scope := some (clientResourcesLoop (fixClient.nameSpace ++ ":")
              fixToken.effective_scope) } } :=
  have h := C7_verify_denies_get_scope_grants fixDb fixClient "TOK" fixToken
    (by decide) (by decide) (by decide) (by decide) ⟨"contacts", by decide⟩
  ⟨h.1, h.2.2.1⟩

/-- C10: the avatar/edit handler fails as a bad request for every value
that does not parse as an absolute HTTPS URL with a non-empty host (the
`ftp://x.com/a.png` scenario fails), leaving the user's avatar unchanged;
when validation passes it overwrites the user's avatar with the supplied
value and the returned document echoes it. -/
theorem C10_avatar_edit (user : User) (avatar : String) :
    ((urlparse avatar).scheme = "https" ∧ (urlparse avatar).netloc ≠ "" →
      resource_avatar_edit user avatar
        = ({ user with avatar := avatar }, .ok { avatar := avatar })) ∧
    (¬((urlparse avatar).scheme = "https" ∧ (urlparse avatar).netloc ≠ "") →
      resource_avatar_edit user avatar = (user, .error "Invalid avatar URL")) ∧
    resource_avatar_edit user "ftp://x.com/a.png" = (user, .error "Invalid avatar URL") ∧
    resource_avatar_edit user "https://x.com/a.png"
      = ({ user with avatar := "https://x.com/a.png" },
          .ok { avatar := "https://x.com/a.png" }) := by
  refine ⟨?_, ?_, ?_, ?_⟩
  · intro h
    simp only [resource_avatar_edit]
    rw [if_pos h]
  · intro h
    simp only [resource_avatar_edit]
    rw [if_neg h]
  · simp only [resource_avatar_edit]
    rw [if_neg (by decide)]
  · simp only [resource_avatar_edit]
    rw [if_pos (by decide)]

/-- C10 witness: the HTTPS scenario at a concrete user. -/
theorem C10_avatar_edit_witness :
    ((urlparse "https://x.com/a.png").scheme = "https" ∧
      (urlparse "https://x.com/a.png").netloc ≠ "") ∧
    resource_avatar_edit fixUser "https://x.com/a.png"
      = ({ fixUser with avatar := "https://x.com/a.png" },
          .ok { avatar := "https://x.com/a.png" }) :=
  ⟨by decide, (C10_avatar_edit fixUser "https://x.com/a.png").1 (by decide)⟩

/-- C9 counterexample: with the `all` flag falsy the handler's document
carries the full id block — username, fullname, timezone and the rest —
so it is not a `{userid}`-only projection. -/
theorem C9_counterexample :
    resource_id fixDb fixToken false
      = some
          { idBlock := some
              { userid := "u1", buid := "u1", uuid := "uu1", username := "alice",
                fullname := "Alice A", timezone := "UTC", avatar := "",
                oldids := [], olduuids := [] },
            sessionid := none, email := none, phone := none,
            organizations := none, teams := none, permissions := none } := by
  decide

/-- C9 amended: with a truthy `all` flag the handler returns the full
projection of the token's user against the token's effective scope with
permissions included; otherwise it returns the projection for scope
exactly `["id"]` — the id-topic block only — with no permissions and
none of the email/phone/organizations/teams keys. -/
theorem C9_resource_id (db : Database) (authtoken : AuthToken) (u : User)
    (h : authtoken.user = some u) :
    resource_id db authtoken true
      = some (get_userinfo db u authtoken.auth_client authtoken.effective_scope none true) ∧
    resource_id db authtoken false
      = some (get_userinfo db u authtoken.auth_client ["id"] none false) ∧
    get_userinfo db u authtoken.auth_client ["id"] none false
      = { idBlock := some
            { userid := u.buid, buid := u.buid, uuid := u.uuid,
              username := u.username, fullname := u.fullname,
              timezone := u.timezone, avatar := u.avatar,
              oldids := u.oldids.map (fun o => o.buid),
              olduuids := u.oldids.map (fun o => o.uuid) },
          sessionid := none, email := none, phone := none,
          organizations := none, teams := none, permissions := none } := by
  refine ⟨?_, ?_, ?_⟩
  · unfold resource_id
    rw [h]
    rfl
  · unfold resource_id
    rw [h]
    rfl
  · rfl

/-- C9 witness: the truthy branch at the fixture token. -/
theorem C9_resource_id_witness :
    fixToken.user = some fixUser ∧
    resource_id fixDb fixToken true
      = some (get_userinfo fixDb fixUser fixToken.auth_client
          fixToken.effective_scope none true) :=
  ⟨rfl, (C9_resource_id fixDb fixToken fixUser rfl).1⟩

/-- C5 counterexample: for a user-owned client with no grant record, the
permissions key is left absent (`none`), not set to the empty list as the
claim states. -/
theorem C5_counterexample :
    (get_userinfo fixDb fixUser fixUserOwnedClient [] none true).permissions = none ∧
    (get_userinfo fixDb fixUser fixUserOwnedClient [] none true).permissions ≠ some [] :=
  ⟨rfl, by decide⟩

/-- C5 amended: permission resolution never fails and is deterministic;
for a user-owned client with a grant record the result is the grant's
permission strings; with no grant record the permissions field is absent
(not the empty set); for a non-user-owned client the result is the
sorted, duplicate-free union of the caller's (client, team) grant strings
over the user's teams, invariant under any permutation of the grant
rows. -/
theorem C5_permission_resolution (db : Database) (auth_client : AuthClient)
    (u : User) :
    (∀ (x : String) (row : UserPermRow), auth_client.user = some x →
      AuthClientUserPermissions.get db auth_client u = some row →
      permissions_of db auth_client u = some (splitSpace row.access_permissions)) ∧
    (∀ x : String, auth_client.user = some x →
      AuthClientUserPermissions.get db auth_client u = none →
      permissions_of db auth_client u = none) ∧
    (auth_client.user = none →
      ∃ l, permissions_of db auth_client u = some l ∧ l.Sorted strLe ∧ l.Nodup ∧
        ∀ y, y ∈ l ↔ ∃ row ∈ db.teamPerms, row.clientBuid = auth_client.buid ∧
          (∃ t ∈ u.teams, t.buid = row.teamBuid) ∧
          y ∈ splitSpace row.access_permissions) ∧
    (∀ db2 : Database, auth_client.user = none →
      List.Perm db.teamPerms db2.teamPerms →
      permissions_of db auth_client u = permissions_of db2 auth_client u) ∧
    (∀ (scope : List String) (sess : Option String),
      (get_userinfo db u auth_client scope sess true).permissions
        = permissions_of db auth_client u) := by
  have hmem : ∀ dbx : Database, ¬u.teams.isEmpty = true → ∀ y : String,
      y ∈ (AuthClientTeamPermissions.all_for dbx auth_client u).foldl
          (fun s permob => setUpdate s (splitSpace permob.access_permissions)) []
        ↔ ∃ row ∈ dbx.teamPerms, row.clientBuid = auth_client.buid ∧
            (∃ t ∈ u.teams, t.buid = row.teamBuid) ∧
            y ∈ splitSpace row.access_permissions := by
    intro dbx _ y
    rw [mem_permsFold]
    unfold AuthClientTeamPermissions.all_for
    simp only [List.not_mem_nil, false_or, List.mem_filter, decide_eq_true_eq]
    constructor
    · rintro ⟨row, ⟨hrow, hc, ht⟩, hy⟩
      exact ⟨row, hrow, hc, ht, hy⟩
    · rintro ⟨row, hrow, hc, ht, hy⟩
      exact ⟨row, ⟨hrow, hc, ht⟩, hy⟩
  refine ⟨?_, ?_, ?_, ?_, ?_⟩
  · intro x row hx hrow
    unfold permissions_of
    rw [hx, hrow]
  · intro x hx hrow
    unfold permissions_of
    rw [hx, hrow]
  · intro hnone
    unfold permissions_of
    rw [hnone]
    by_cases hte : u.teams.isEmpty = true
    · rw [if_pos hte]
      refine ⟨pySorted [], rfl, pySorted_sorted [], ?_, ?_⟩
      · exact (pySorted_perm []).nodup_iff.mpr List.nodup_nil
      · intro y
        have hle : u.teams = [] := List.isEmpty_iff.mp hte
        rw [(pySorted_perm []).mem_iff]
        simp [hle]
    · rw [if_neg hte]
      refine ⟨_, rfl, pySorted_sorted _, ?_, ?_⟩
      · exact (pySorted_perm _).nodup_iff.mpr (nodup_permsFold _ [] List.nodup_nil)
      · intro y
        rw [(pySorted_perm _).mem_iff]
        exact hmem db hte y
  · intro db2 hnone hperm
    unfold permissions_of
    rw [hnone]
    by_cases hte : u.teams.isEmpty = true
    · rw [if_pos hte, if_pos hte]
    · rw [if_neg hte, if_neg hte]
      refine congrArg some (pySorted_eq_of_perm ?_)
      apply (List.perm_ext_iff_of_nodup (nodup_permsFold _ [] List.nodup_nil)
        (nodup_permsFold _ [] List.nodup_nil)).mpr
      intro y
      rw [hmem db hte y, hmem db2 hte y]
      constructor
      · rintro ⟨row, hrow, hrest⟩
        exact ⟨row, hperm.mem_iff.mp hrow, hrest⟩
      · rintro ⟨row, hrow, hrest⟩
        exact ⟨row, hperm.mem_iff.mpr hrow, hrest⟩
  · intro scope sess
    rfl

/-- C5 witness: the fixture grants resolve to the sorted sequence
`["edit", "view"]`, unchanged when the grant rows are permuted. -/
theorem C5_permission_resolution_witness :
    fixClient.user = none ∧
    List.Perm fixDb.teamPerms fixDbPermuted.teamPerms ∧
    permissions_of fixDb fixClient fixUser
      = permissions_of fixDbPermuted fixClient fixUser ∧
    permissions_of fixDb fixClient fixUser = some ["edit", "view"] :=
  ⟨rfl, by decide,
    (C5_permission_resolution fixDb fixClient fixUser).2.2.2.1 fixDbPermuted rfl (by decide),
    by decide⟩

/-- The success parameters of `token_get_scope` at the fixture inputs. -/
def fixScopeParams : VerifyParams :=
  { validity := 120,
    userinfo := some (get_userinfo fixDb fixUser fixClient
      fixToken.effective_scope none true),
    clientinfo :=
      { title := "Pad", userid := "po", buid := "po", uuid := "pou",
        owner_title := "Pad Owner", website := "https://pad.example",
        key := "c2", trusted := true, scope := some ["contacts", "deals"] } }

/-- C8: in both `token_verify` and `token_get_scope`, the permissions in
the userinfo payload are `permissions_of` applied to the calling
authenticated client, while the clientinfo of the same response carries
the token's owning client; at the fixture inputs the two resolutions
differ and the payload follows the caller. -/
theorem C8_permissions_resolved_against_caller :
    (∀ (db : Database) (caller : AuthClient) (tok : String)
        (authtoken : AuthToken) (u : User),
      tok ≠ "" → caller.nameSpace ≠ "" → AuthToken.get db tok = some authtoken →
      (caller.nameSpace ++ ":" ++ "*" ∈ authtoken.effective_scope ∨
        caller.nameSpace ++ ":*" ∈ authtoken.effective_scope) →
      authtoken.user = some u →
      ∀ p, token_verify db caller tok "*" = .apiOk p →
        p.userinfo = some (get_userinfo db u caller authtoken.effective_scope none true) ∧
        (get_userinfo db u caller authtoken.effective_scope none true).permissions
          = permissions_of db caller u ∧
        p.clientinfo.key = authtoken.auth_client.buid) ∧
    (∀ (db : Database) (caller : AuthClient) (tok : String)
        (authtoken : AuthToken) (u : User),
      tok ≠ "" → caller.nameSpace ≠ "" → AuthToken.get db tok = some authtoken →
      clientResourcesLoop (caller.nameSpace ++ ":") authtoken.effective_scope ≠ [] →
      authtoken.user = some u →
      ∀ p, token_get_scope db caller tok = .apiOk p →
        p.userinfo = some (get_userinfo db u caller authtoken.effective_scope none true) ∧
        (get_userinfo db u caller authtoken.effective_scope none true).permissions
          = permissions_of db caller u ∧
        p.clientinfo.key = authtoken.auth_client.buid) ∧
    (permissions_of fixDb fixClient fixUser = some ["edit", "view"] ∧
      permissions_of fixDb fixUserOwnedClient fixUser = none ∧
      (get_userinfo fixDb fixUser fixClient fixToken.effective_scope none true).permissions
        = some ["edit", "view"]) := by
  refine ⟨?_, ?_, by decide, by decide, by decide⟩
  · intro db caller tok authtoken u htok hns hget hscope hu p hp
    rw [token_verify_ok db caller tok authtoken htok hns hget hscope] at hp
    injection hp with h
    subst h
    exact ⟨by rw [hu]; rfl, rfl, rfl⟩
  · intro db caller tok authtoken u htok hns hget hne hu p hp
    rw [token_get_scope_ok db caller tok authtoken htok hns hget hne] at hp
    injection hp with h
    subst h
    exact ⟨by rw [hu]; rfl, rfl, rfl⟩

/-- C8 witness: at the fixture inputs the get_scope payload's permissions
equal the caller's resolution. -/
theorem C8_permissions_resolved_against_caller_witness :
    fixScopeParams.userinfo
      = some (get_userinfo fixDb fixUser fixClient fixToken.effective_scope none true) ∧
    (get_userinfo fixDb fixUser fixClient fixToken.effective_scope none true).permissions
      = permissions_of fixDb fixClient fixUser ∧
    fixScopeParams.clientinfo.key = fixToken.auth_client.buid :=
  C8_permissions_resolved_against_caller.2.1 fixDb fixClient "TOK" fixToken fixUser
    (by decide) (by decide) (by decide) (by decide) rfl fixScopeParams (by decide)

theorem teamsGate1_mono {S S' : List String} (hsub : ∀ x ∈ S, x ∈ S') :
    teamsGate1 S → teamsGate1 S' := by
  rintro (h | h | h | h | h)
  · exact Or.inl (hsub _ h)
  · exact Or.inr (Or.inl (hsub _ h))
  · exact Or.inr (Or.inr (Or.inl (hsub _ h)))
  · exact Or.inr (Or.inr (Or.inr (Or.inl (hsub _ h))))
  · exact Or.inr (Or.inr (Or.inr (Or.inr (hsub _ h))))

theorem teamsGate2_mono {S S' : List String} (hsub : ∀ x ∈ S, x ∈ S') :
    teamsGate2 S → teamsGate2 S' := by
  rintro (h | h | h)
  · exact Or.inl (hsub _ h)
  · exact Or.inr (Or.inl (hsub _ h))
  · exact Or.inr (Or.inr (hsub _ h))

/-- C1 counterexample: scope `["organizations"]` contains none of `"*"`,
`"teams"`, `"teams/*"`, yet the fixture user's projection discloses the
`teams` key, so the independent per-topic iff fails for topic `teams`. -/
theorem C1_counterexample :
    ¬("*" ∈ (["organizations"] : List String) ∨
        "teams" ∈ (["organizations"] : List String) ∨
        "teams/*" ∈ (["organizations"] : List String)) ∧
    (get_userinfo fixDb fixUser fixClient ["organizations"] none false).teams.isSome = true :=
  ⟨by decide, by decide⟩

/-- C1 amended: the per-topic iff holds for `id`, `email`, `phone` and
`organizations`; the `teams` key is disclosed iff the team map is
nonempty — the scope grants organizations or teams and the user has a
direct team, or it grants teams and the user owns an organization with a
team; disclosure is monotonic under adding scope tokens; scope exactly
`["id"]` discloses none of the other topics; scope `["*"]` discloses all
of them provided the user has a direct team. -/
theorem C1_scope_gating :
    (∀ (db : Database) (u : User) (c : AuthClient) (S : List String)
        (sess : Option String) (gp : Bool),
      ((get_userinfo db u c S sess gp).idBlock.isSome = true ↔
        ("*" ∈ S ∨ "id" ∈ S ∨ "id/*" ∈ S)) ∧
      ((get_userinfo db u c S sess gp).email.isSome = true ↔
        ("*" ∈ S ∨ "email" ∈ S ∨ "email/*" ∈ S)) ∧
      ((get_userinfo db u c S sess gp).phone.isSome = true ↔
        ("*" ∈ S ∨ "phone" ∈ S ∨ "phone/*" ∈ S)) ∧
      ((get_userinfo db u c S sess gp).organizations.isSome = true ↔
        ("*" ∈ S ∨ "organizations" ∈ S ∨ "organizations/*" ∈ S)) ∧
      ((get_userinfo db u c S sess gp).teams.isSome = true ↔
        ((teamsGate1 S ∧ u.teams ≠ []) ∨
          (teamsGate2 S ∧ ∃ org ∈ u.organizations_owned, org.teams ≠ [])))) ∧
    (∀ (db : Database) (u : User) (c : AuthClient) (S S' : List String)
        (sess : Option String) (gp : Bool), (∀ x ∈ S, x ∈ S') →
      ((get_userinfo db u c S sess gp).idBlock.isSome = true →
        (get_userinfo db u c S' sess gp).idBlock.isSome = true) ∧
      ((get_userinfo db u c S sess gp).email.isSome = true →
        (get_userinfo db u c S' sess gp).email.isSome = true) ∧
      ((get_userinfo db u c S sess gp).phone.isSome = true →
        (get_userinfo db u c S' sess gp).phone.isSome = true) ∧
      ((get_userinfo db u c S sess gp).organizations.isSome = true →
        (get_userinfo db u c S' sess gp).organizations.isSome = true) ∧
      ((get_userinfo db u c S sess gp).teams.isSome = true →
        (get_userinfo db u c S' sess gp).teams.isSome = true)) ∧
    (∀ (db : Database) (u : User) (c : AuthClient) (sess : Option String) (gp : Bool),
      (get_userinfo db u c ["id"] sess gp).email = none ∧
      (get_userinfo db u c ["id"] sess gp).phone = none ∧
      (get_userinfo db u c ["id"] sess gp).organizations = none ∧
      (get_userinfo db u c ["id"] sess gp).teams = none) ∧
    (∀ (db : Database) (u : User) (c : AuthClient) (sess : Option String) (gp : Bool),
      u.teams ≠ [] →
      (get_userinfo db u c ["*"] sess gp).idBlock.isSome = true ∧
      (get_userinfo db u c ["*"] sess gp).email.isSome = true ∧
      (get_userinfo db u c ["*"] sess gp).phone.isSome = true ∧
      (get_userinfo db u c ["*"] sess gp).organizations.isSome = true ∧
      (get_userinfo db u c ["*"] sess gp).teams.isSome = true) := by
  have hteams : ∀ (db : Database) (u : User) (c : AuthClient) (S : List String)
      (sess : Option String) (gp : Bool),
      (get_userinfo db u c S sess gp).teams.isSome = true ↔
        ((teamsGate1 S ∧ u.teams ≠ []) ∨
          (teamsGate2 S ∧ ∃ org ∈ u.organizations_owned, org.teams ≠ [])) := by
    intro db u c S sess gp
    rw [get_userinfo_teams, ← teamMap_ne_nil_iff]
    by_cases hmt : (teamMap u S).isEmpty = true
    · rw [if_pos hmt]
      have hnil : teamMap u S = [] := List.isEmpty_iff.mp hmt
      simp [hnil]
    · rw [if_neg hmt]
      have hne : teamMap u S ≠ [] := by simpa [List.isEmpty_iff] using hmt
      simp [hne]
  have hchar : ∀ (db : Database) (u : User) (c : AuthClient) (S : List String)
      (sess : Option String) (gp : Bool),
      ((get_userinfo db u c S sess gp).idBlock.isSome = true ↔
        ("*" ∈ S ∨ "id" ∈ S ∨ "id/*" ∈ S)) ∧
      ((get_userinfo db u c S sess gp).email.isSome = true ↔
        ("*" ∈ S ∨ "email" ∈ S ∨ "email/*" ∈ S)) ∧
      ((get_userinfo db u c S sess gp).phone.isSome = true ↔
        ("*" ∈ S ∨ "phone" ∈ S ∨ "phone/*" ∈ S)) ∧
      ((get_userinfo db u c S sess gp).organizations.isSome = true ↔
        ("*" ∈ S ∨ "organizations" ∈ S ∨ "organizations/*" ∈ S)) ∧
      ((get_userinfo db u c S sess gp).teams.isSome = true ↔
        ((teamsGate1 S ∧ u.teams ≠ []) ∨
          (teamsGate2 S ∧ ∃ org ∈ u.organizations_owned, org.teams ≠ []))) := by
    intro db u c S sess gp
    refine ⟨?_, ?_, ?_, ?_, hteams db u c S sess gp⟩
    · rw [get_userinfo_idBlock]
      exact isSome_if
    · rw [get_userinfo_email]
      exact isSome_if
    · rw [get_userinfo_phone]
      exact isSome_if
    · rw [get_userinfo_organizations]
      exact isSome_if
  refine ⟨hchar, ?_, ?_, ?_⟩
  · intro db u c S S' sess gp hsub
    obtain ⟨hid, hem, hph, hor, hte⟩ := hchar db u c S sess gp
    obtain ⟨hid2, hem2, hph2, hor2, hte2⟩ := hchar db u c S' sess gp
    refine ⟨?_, ?_, ?_, ?_, ?_⟩
    · rw [hid, hid2]
      rintro (h | h | h)
      · exact Or.inl (hsub _ h)
      · exact Or.inr (Or.inl (hsub _ h))
      · exact Or.inr (Or.inr (hsub _ h))
    · rw [hem, hem2]
      rintro (h | h | h)
      · exact Or.inl (hsub _ h)
      · exact Or.inr (Or.inl (hsub _ h))
      · exact Or.inr (Or.inr (hsub _ h))
    · rw [hph, hph2]
      rintro (h | h | h)
      · exact Or.inl (hsub _ h)
      · exact Or.inr (Or.inl (hsub _ h))
      · exact Or.inr (Or.inr (hsub _ h))
    · rw [hor, hor2]
      rintro (h | h | h)
      · exact Or.inl (hsub _ h)
      · exact Or.inr (Or.inl (hsub _ h))
      · exact Or.inr (Or.inr (hsub _ h))
    · rw [hte, hte2]
      rintro (⟨h1, ht⟩ | ⟨h2, ho⟩)
      · exact Or.inl ⟨teamsGate1_mono hsub h1, ht⟩
      · exact Or.inr ⟨teamsGate2_mono hsub h2, ho⟩
  · intro db u c sess gp
    refine ⟨?_, ?_, ?_, ?_⟩
    · rw [get_userinfo_email, if_neg (by decide)]
    · rw [get_userinfo_phone, if_neg (by decide)]
    · rw [get_userinfo_organizations, if_neg (by decide)]
    · rw [get_userinfo_teams]
      have hnil : teamMap u ["id"] = [] := by
        unfold teamMap teamMap1
        rw [if_neg (by decide), if_neg (by decide)]
      rw [hnil]
      rfl
  · intro db u c sess gp hne
    refine ⟨?_, ?_, ?_, ?_, ?_⟩
    · rw [get_userinfo_idBlock, if_pos (by decide)]
      rfl
    · rw [get_userinfo_email, if_pos (by decide)]
      rfl
    · rw [get_userinfo_phone, if_pos (by decide)]
      rfl
    · rw [get_userinfo_organizations, if_pos (by decide)]
      rfl
    · exact (hteams db u c ["*"] sess gp).mpr (Or.inl ⟨by decide, hne⟩)

/-- C1 witness: the wildcard scope disclosing every topic for the
fixture user. -/
theorem C1_scope_gating_witness :
    fixUser.teams ≠ [] ∧
    (get_userinfo fixDb fixUser fixClient ["*"] none true).email.isSome = true ∧
    (get_userinfo fixDb fixUser fixClient ["*"] none true).teams.isSome = true := by
  have h := C1_scope_gating.2.2.2 fixDb fixUser fixClient none true (by decide)
  exact ⟨by decide, h.2.1, h.2.2.2.2⟩

/-- C6: in the teams list of `get_userinfo` every buid appears exactly
once; an entry's member flag is true iff the user directly belongs to a
team with that buid (direct membership wins, entries added only by the
ownership pass carry member false); under the first gate every direct
team contributes an entry with member true; and each entry's owners flag
is true iff that team is its organization's designated owners team. -/
theorem C6_team_dedup (db : Database) (u : User) (c : AuthClient)
    (S : List String) (sess : Option String) (gp : Bool) :
    (((get_userinfo db u c S sess gp).teams.getD []).map TeamInfo.buid).Nodup ∧
    (∀ e ∈ (get_userinfo db u c S sess gp).teams.getD [],
      e.member = true ↔ ∃ t ∈ u.teams, t.buid = e.buid) ∧
    (teamsGate1 S → ∀ t ∈ u.teams,
      ∃ e ∈ (get_userinfo db u c S sess gp).teams.getD [],
        e.buid = t.buid ∧ e.member = true) ∧
    (∀ e ∈ (get_userinfo db u c S sess gp).teams.getD [],
      ∃ t : Team, (t ∈ u.teams ∨ ∃ org ∈ u.organizations_owned, t ∈ org.teams) ∧
        e = teamEntry t e.member ∧
        (e.owners = true ↔ t.buid = t.organization.ownersBuid)) := by
  by_cases hmt : (teamMap u S).isEmpty = true
  · have hL : (get_userinfo db u c S sess gp).teams.getD [] = [] := by
      rw [get_userinfo_teams, if_pos hmt]
      rfl
    have hnil : teamMap u S = [] := List.isEmpty_iff.mp hmt
    rw [hL]
    refine ⟨List.nodup_nil, ?_, ?_, ?_⟩
    · intro e he
      exact (List.not_mem_nil e he).elim
    · intro h1 t ht
      exfalso
      have hkey := teamMap_covers_direct h1 t ht
      rw [hnil] at hkey
      exact List.not_mem_nil _ hkey
    · intro e he
      exact (List.not_mem_nil e he).elim
  · have hL : (get_userinfo db u c S sess gp).teams.getD []
        = (teamMap u S).map Prod.snd := by
      rw [get_userinfo_teams, if_neg hmt]
      rfl
    rw [hL]
    refine ⟨?_, ?_, ?_, ?_⟩
    · rw [List.map_map]
      have heq : (teamMap u S).map (TeamInfo.buid ∘ Prod.snd)
          = (teamMap u S).map Prod.fst := by
        apply List.map_congr_left
        intro p hp
        exact teamMap_buid_eq_key p hp
      rw [heq]
      exact nodup_dictKeys_teamMap u S
    · intro e he
      obtain ⟨p, hp, hpe⟩ := List.mem_map.mp he
      subst hpe
      rw [teamMap_buid_eq_key p hp]
      exact teamMap_member_iff p hp
    · intro h1 t ht
      have hkey := teamMap_covers_direct h1 t ht
      obtain ⟨p, hp, hpk⟩ := (mem_dictKeys _ _).mp hkey
      refine ⟨p.2, List.mem_map.mpr ⟨p, hp, rfl⟩, ?_, ?_⟩
      · rw [teamMap_buid_eq_key p hp, hpk]
      · exact (teamMap_member_iff p hp).mpr ⟨t, ht, hpk.symm⟩
    · intro e he
      obtain ⟨p, hp, hpe⟩ := List.mem_map.mp he
      subst hpe
      rcases mem_teamMap hp with ⟨t, ht, hte⟩ | ⟨org, ho, t, ht, hte, -⟩
      · refine ⟨t, Or.inl ht, ?_, ?_⟩
        · rw [hte]
          rfl
        · rw [hte]
          simp [teamEntry]
      · refine ⟨t, Or.inr ⟨org, ho, ht⟩, ?_, ?_⟩
        · rw [hte]
          rfl
        · rw [hte]
          simp [teamEntry]

/-- C6 witness: for the fixture user the directly-joined owners team is
present once with member true. -/
theorem C6_team_dedup_witness :
    teamsGate1 ["*"] ∧ fixTeamOwners ∈ fixUser.teams ∧
    ∃ e ∈ (get_userinfo fixDb fixUser fixClient ["*"] none false).teams.getD [],
      e.buid = fixTeamOwners.buid ∧ e.member = true :=
  ⟨by decide, by decide,
    (C6_team_dedup fixDb fixUser fixClient ["*"] none false).2.2.1
      (by decide) fixTeamOwners (by decide)⟩

end Lastuser
